import Mathlib

/-!
Verification of the csi-node-cache specification against a shallow embedding
of the repository's Go sources.

The embedding models Go strings as Lean Strings, with the handful of
go standard-library string operations the code uses (Split, SplitN,
TrimSpace, Join) defined over the underlying character lists.  External
collaborators (the k8s resource.Quantity library, the filesystem, mdadm,
the mount table) are modelled by explicit environment records, so every
embedded function is a pure, executable Lean function.
-/

namespace NodeCache

/-- Whitespace characters recognized by Go strings.TrimSpace (ASCII subset;
the sources never hold non-ASCII whitespace). -/
def goIsSpace (c : Char) : Bool :=
  c == ' ' || c == '\t' || c == '\n' || c == '\r' || c == '\x0b' || c == '\x0c'

/-- Drop leading whitespace from a character list. -/
def trimLeftChars : List Char → List Char
  | [] => []
  | c :: rest => if goIsSpace c then trimLeftChars rest else c :: rest

/-- Drop leading and trailing whitespace from a character list. -/
def trimChars (l : List Char) : List Char :=
  trimLeftChars ((trimLeftChars l.reverse).reverse)

/-- Model of Go strings.TrimSpace. -/
def goTrimSpace (s : String) : String := String.mk (trimChars s.data)

/-- Split a character list at every occurrence of the character c.
Models Go strings.Split for a one-character separator (all separators used
by the sources are one character). -/
def splitOnChar (c : Char) : List Char → List (List Char)
  | [] => [[]]
  | a :: rest =>
    match splitOnChar c rest with
    | [] => [[]]
    | group :: groups =>
      if a == c then [] :: group :: groups else (a :: group) :: groups

/-- Model of Go strings.Split with a one-character separator. -/
def goSplit (s : String) (c : Char) : List String :=
  (splitOnChar c s.data).map String.mk

/-- Split a character list at the first occurrence of c, if any. -/
def breakOnChar (c : Char) : List Char → Option (List Char × List Char)
  | [] => none
  | a :: rest =>
    if a == c then some ([], rest)
    else
      match breakOnChar c rest with
      | none => none
      | some (l, r) => some (a :: l, r)

/-- Model of Go strings.SplitN(s, sep, 2) with a one-character separator:
one element when the separator is absent, otherwise the part before the
first separator and everything after it. -/
def goSplitN2 (s : String) (c : Char) : List String :=
  match breakOnChar c s.data with
  | none => [s]
  | some (l, r) => [String.mk l, String.mk r]

/-- Interleave the character c between the groups. -/
def joinChar (c : Char) : List (List Char) → List Char
  | [] => []
  | [l] => l
  | l :: rest => l ++ c :: joinChar c rest

/-- Model of Go strings.Join with a one-character separator. -/
def goJoin (ls : List String) (c : Char) : String :=
  String.mk (joinChar c (ls.map String.data))

/-!
Model of the external k8s resource.Quantity library, specified by the
interface it presents to the core (spec section 3: an orchestrator-standard
quantity).  ParseQuantity accepts a signed decimal number with an optional
binary-SI, decimal-SI or decimal-exponent suffix; a parsed quantity caches
the accepted input string and String() returns that cached string verbatim,
while the zero value of the type prints as "0".  IsZero asks whether the
numeric value is zero.  The model carries the cached string; this is the
only part of the library state the codec observes.
-/

/-- Drop one leading sign character, if present. -/
def dropSign : List Char → List Char
  | [] => []
  | c :: rest => if c == '+' || c == '-' then rest else c :: rest

/-- The binary-SI and decimal-SI suffixes accepted by resource.ParseQuantity. -/
def quantitySuffixes : List String :=
  ["Ki", "Mi", "Gi", "Ti", "Pi", "Ei", "n", "u", "m", "k", "M", "G", "T", "P", "E"]

/-- A decimal-exponent suffix: the letter e or E, an optional sign and at
least one digit. -/
def isExpSuffix : List Char → Bool
  | [] => false
  | e :: rest =>
    (e == 'e' || e == 'E') &&
      (dropSign rest ≠ [] && (dropSign rest).all Char.isDigit)

/-- An acceptable suffix for a quantity: empty, one of the SI suffixes, or a
decimal exponent. -/
def isQuantitySuffix (l : List Char) : Bool :=
  l == [] || quantitySuffixes.any (fun s => l == s.data) || isExpSuffix l

/-- Whether a character list is an acceptable resource.Quantity input:
optional sign, at least one integer digit, an optional fraction part, and
an acceptable suffix. -/
def checkQuantityChars (l : List Char) : Bool :=
  let l1 := dropSign l
  let ip := l1.takeWhile Char.isDigit
  let r1 := l1.dropWhile Char.isDigit
  ip ≠ [] &&
    match r1 with
    | '.' :: r2 =>
      (r2.takeWhile Char.isDigit) ≠ [] && isQuantitySuffix (r2.dropWhile Char.isDigit)
    | _ => isQuantitySuffix r1

/-- Whether every significand digit of an acceptable quantity input is 0. -/
def quantityDigitsZero (l : List Char) : Bool :=
  let l1 := dropSign l
  let ip := l1.takeWhile Char.isDigit
  let r1 := l1.dropWhile Char.isDigit
  let fp := match r1 with
    | '.' :: r2 => r2.takeWhile Char.isDigit
    | _ => []
  (ip ++ fp).all (fun c => c == '0')

/-- Model of k8s resource.Quantity: the cached string (empty for the Go
zero value of the type). -/
structure Quantity where
  s : String
deriving DecidableEq

/-- Model of resource.ParseQuantity: validate the input and cache it. -/
def parseQuantity (str : String) : Option Quantity :=
  if checkQuantityChars str.data then some ⟨str⟩ else none

/-- Model of the IsZero method of resource.Quantity. -/
def Quantity.IsZero (q : Quantity) : Bool :=
  q.s == "" || quantityDigitsZero q.s.data

/-- Model of the String method of resource.Quantity: the cached string, or
the canonical form of the zero value. -/
def Quantity.string (q : Quantity) : String :=
  if q.s == "" then "0" else q.s

/-!
The volume-type map codec, from pkg/csi/node.go: volumeTypeInfo,
getVolumeTypeMapping and writeVolumeTypeMapping.  The config-map Data
field (a Go map from string to string) is modelled as an association
list; the parsed type map likewise.  Because the parser indexes parts[1]
of a SplitN result that may have a single element, a Go runtime panic is
a possible outcome and the result type has a third constructor for it.
-/

/-- Result of a Go computation that can return a value, return an error, or
panic at runtime. -/
inductive PResult (α : Type) where
  | ok (val : α)
  | err (msg : String)
  | panic
deriving DecidableEq

/-- Whether a PResult is the error outcome. -/
def PResult.isErr {α : Type} : PResult α → Bool
  | .err _ => true
  | _ => false

/-- Whether a PResult is the success outcome. -/
def PResult.isOk {α : Type} : PResult α → Bool
  | .ok _ => true
  | _ => false

/-- The volumeTypeInfo struct of pkg/csi/node.go. -/
structure volumeTypeInfo where
  VolumeType : String
  Size : Quantity
  Disk : String
deriving DecidableEq

/-- The Go zero value of volumeTypeInfo (var info volumeTypeInfo). -/
def volumeTypeInfo.zero : volumeTypeInfo := { VolumeType := "", Size := ⟨""⟩, Disk := "" }

/-- The well-known config-map key of pkg/csi/node.go. -/
def volumeTypeInfoKey : String := "volume-types"

/-- Lookup in a Go map modelled as an association list. -/
def lookupKey (data : List (String × String)) (k : String) : Option String :=
  match data.find? (fun p => p.1 == k) with
  | some p => some p.2
  | none => none

/-- Assignment into a Go map modelled as an association list. -/
def setKey (data : List (String × String)) (k v : String) : List (String × String) :=
  if data.any (fun p => p.1 == k) then
    data.map (fun p => if p.1 == k then (k, v) else p)
  else data ++ [(k, v)]

/-- Lookup in the parsed type map. -/
def lookupNode (m : List (String × volumeTypeInfo)) (node : String) : Option volumeTypeInfo :=
  match m.find? (fun p => p.1 == node) with
  | some p => some p.2
  | none => none

/-- One iteration of the items loop of getVolumeTypeMapping: process one
comma-separated field of a line.  parts has one element exactly when the
field carries no equals sign; in the type, size and disk cases the Go code
then indexes parts[1] out of range, which is the panic outcome. -/
def parseItem (line : String) (info : volumeTypeInfo) (item : String) :
    PResult volumeTypeInfo :=
  let parts := goSplitN2 item '='
  let trimmed := goTrimSpace (parts.headD "")
  if trimmed == "type" then
    match parts.get? 1 with
    | some v => .ok { info with VolumeType := goTrimSpace v }
    | none => .panic
  else if trimmed == "size" then
    match parts.get? 1 with
    | some v =>
      let szStr := goTrimSpace v
      match parseQuantity szStr with
      | some q => .ok { info with Size := q }
      | none => .err ("bad size in volume type config map: " ++ line)
    | none => .panic
  else if trimmed == "disk" then
    match parts.get? 1 with
    | some v => .ok { info with Disk := goTrimSpace v }
    | none => .panic
  else
    .err ("bad key " ++ trimmed ++ " in volume type config map: " ++ line)

/-- The items loop of getVolumeTypeMapping over items[1:]. -/
def parseItems (line : String) (info : volumeTypeInfo) :
    List String → PResult volumeTypeInfo
  | [] => .ok info
  | item :: rest =>
    match parseItem line info item with
    | .ok info2 => parseItems line info2 rest
    | .err m => .err m
    | .panic => .panic

/-- One iteration of the lines loop of getVolumeTypeMapping. -/
def parseLine (typeMap : List (String × volumeTypeInfo)) (rawLine : String) :
    PResult (List (String × volumeTypeInfo)) :=
  let line := goTrimSpace rawLine
  if line == "" then .ok typeMap
  else
    let items := goSplit line ','
    if items.length < 2 then .err ("Bad line in volume type config map: " ++ line)
    else
      let node := goTrimSpace (items.headD "")
      if (lookupNode typeMap node).isSome then
        .err ("node " ++ node ++ " duplicated in volume type config map: " ++ line)
      else
        match parseItems line volumeTypeInfo.zero items.tail with
        | .ok info => .ok (typeMap ++ [(node, info)])
        | .err m => .err m
        | .panic => .panic

/-- The lines loop of getVolumeTypeMapping. -/
def parseLines (typeMap : List (String × volumeTypeInfo)) :
    List String → PResult (List (String × volumeTypeInfo))
  | [] => .ok typeMap
  | l :: rest =>
    match parseLine typeMap l with
    | .ok tm2 => parseLines tm2 rest
    | .err m => .err m
    | .panic => .panic

/-- getVolumeTypeMapping of pkg/csi/node.go. -/
def getVolumeTypeMapping (configMapData : List (String × String)) :
    PResult (List (String × volumeTypeInfo)) :=
  match lookupKey configMapData volumeTypeInfoKey with
  | none => .err (volumeTypeInfoKey ++ " not found in volume type config map")
  | some nodes => parseLines [] (goSplit nodes '\n')

/-- The per-node line built by writeVolumeTypeMapping: the node name, the
type key, then the size key when the size is non-zero, then the disk key
when the disk is non-empty. -/
def encodeInfoLine (node : String) (info : volumeTypeInfo) : String :=
  let line := node ++ ",type=" ++ info.VolumeType
  let line := if info.Size.IsZero then line else line ++ ",size=" ++ info.Size.string
  if info.Disk == "" then line else line ++ ",disk=" ++ info.Disk

/-- Lexicographic comparison of character lists by code point (equal to
the byte-wise comparison Go's sort uses, on ASCII data). -/
def charListLe : List Char → List Char → Bool
  | [], _ => true
  | _ :: _, [] => false
  | a :: as, b :: bs =>
    if a.toNat < b.toNat then true
    else if b.toNat < a.toNat then false
    else charListLe as bs

/-- Lexicographic order on strings. -/
def strLeb (a b : String) : Bool := charListLe a.data b.data

/-- Insert a string into an already sorted list. -/
def insertSorted (x : String) : List String → List String
  | [] => [x]
  | y :: rest => if strLeb x y then x :: y :: rest else y :: insertSorted x rest

/-- Model of slices.Sort on strings: the sorted rearrangement of the input
(insertion sort; any comparison sort is observationally the same for a
total order). -/
def sortStrings (lines : List String) : List String :=
  lines.foldr insertSorted []

/-- writeVolumeTypeMapping of pkg/csi/node.go. -/
def writeVolumeTypeMapping (configMapData : List (String × String))
    (typeMap : List (String × volumeTypeInfo)) : List (String × String) :=
  setKey configMapData volumeTypeInfoKey
    (goJoin (sortStrings (typeMap.map (fun p => encodeInfoLine p.1 p.2))) '\n')

/-!
Well-formedness of a volume-type map, the hypothesis of the round-trip
law.  Node names, kinds and disk ids are plain identifier-like tokens:
no whitespace, no comma, no newline (k8s object names and label values
can contain none of these).  A size is either the zero value of the
quantity type (the struct field when no size was ever set) or a parsed,
non-zero quantity.
-/

/-- A token that survives the codec verbatim: no whitespace, comma or
newline characters. -/
def cleanToken (s : String) : Bool :=
  s.data.all (fun c => !goIsSpace c && c != ',' && c != '\n')

/-- A well-formed size field: the zero value, or a cached valid non-zero
quantity string. -/
def sizeWellFormed (q : Quantity) : Bool :=
  q.s == "" ||
    (checkQuantityChars q.s.data && !quantityDigitsZero q.s.data && cleanToken q.s)

/-- A well-formed volume-type record. -/
def wellFormedInfo (info : volumeTypeInfo) : Bool :=
  cleanToken info.VolumeType && sizeWellFormed info.Size &&
    (info.Disk == "" || cleanToken info.Disk)

/-- A well-formed volume-type map: distinct well-formed node names and
well-formed records. -/
def wellFormedMap (m : List (String × volumeTypeInfo)) : Prop :=
  (m.map Prod.fst).Nodup ∧ ∀ p ∈ m, cleanToken p.1 = true ∧ wellFormedInfo p.2 = true

instance (m : List (String × volumeTypeInfo)) : Decidable (wellFormedMap m) := by
  unfold wellFormedMap
  infer_instance

/-!
The RAID manager, pkg/raid/raid.go.  The external world (the mdadm tool,
os.Stat, and the /proc/mdstat file) is an environment record; every
external interaction is also recorded in an action trace so that theorems
can speak about which operations an Init run performs.
-/

/-- An external interaction of the RAID manager. -/
inductive RaidAction where
  | mdadm (args : List String)
  | statDevice (device : String)
  | readMdstat
deriving DecidableEq

/-- Outcome of os.Stat as the RAID manager observes it: a found file (with
its block-device mode bit), a not-exist error, or another error. -/
inductive StatResult where
  | found (isDevice : Bool)
  | errNotExist
  | errOther (msg : String)
deriving DecidableEq

/-- The external world of the RAID manager: the result of every mdadm
invocation (combined output and optional error), the result of os.Stat,
and the content of /proc/mdstat. -/
structure RaidEnv where
  mdadm : List String → String × Option String
  stat : String → StatResult
  mdstatContent : Except String String

/-- An ASCII letter or digit, the character class of the second capture
group of the mdstatInactive pattern. -/
def isAlnumAscii (c : Char) : Bool :=
  c.isDigit || (c ≥ 'a' && c ≤ 'z') || (c ≥ 'A' && c ≤ 'Z')

/-- Model of matching one line against the anchored regular expression
mdstatInactive: a non-empty run of non-space characters (group 1), the
literal text of a colon-separated inactive marker, then at least one
ASCII alphanumeric character (group 2).  Returns group 1 when the line
matches.  Because the first group cannot contain a space and must be
followed by a space, it is exactly the prefix before the first space. -/
def mdstatInactiveMatch (line : String) : Option String :=
  let l := line.data
  let g1 := l.takeWhile (fun c => c ≠ ' ')
  let rest := l.dropWhile (fun c => c ≠ ' ')
  let pat := " : inactive ".data
  if g1 == [] then none
  else if pat.isPrefixOf rest then
    match rest.drop pat.length with
    | c :: _ => if isAlnumAscii c then some (String.mk g1) else none
    | [] => none
  else none

/-- getInactiveDevices of pkg/raid/raid.go: the md names of the lines of
the kernel array-status text that match the inactive pattern, each
prefixed with /dev/. -/
def getInactiveDevices (mdstats : String) : List String :=
  (goSplit mdstats '\n').filterMap
    (fun line => (mdstatInactiveMatch line).map (fun name => "/dev/" ++ name))

/-- runMdadm of pkg/raid/raid.go. -/
def runMdadm (env : RaidEnv) (args : List String) :
    (String × Option String) × List RaidAction :=
  (env.mdadm args, [.mdadm args])

/-- isRaidDevice of pkg/raid/raid.go: probe the device with a detail query
and surface the command error, if any. -/
def isRaidDevice (env : RaidEnv) (device : String) :
    Option String × List RaidAction :=
  ((env.mdadm ["--detail", device]).2, [.mdadm ["--detail", device]])

/-- validateDevice of pkg/raid/raid.go: stat the path and require the
device mode bit. -/
def validateDevice (env : RaidEnv) (device : String) :
    Option String × List RaidAction :=
  match env.stat device with
  | .found isDevice =>
    (if isDevice then none else some ("Expected " ++ device ++ " to be a device"),
     [.statDevice device])
  | .errNotExist => (some ("Could not stat device " ++ device ++ " raid"), [.statDevice device])
  | .errOther m =>
    (some ("Could not stat device " ++ device ++ " raid: " ++ m), [.statDevice device])

/-- The member-validation loops of the Init methods: validate each device,
failing fast on the first error. -/
def validateDevices (env : RaidEnv) : List String → Option String × List RaidAction
  | [] => (none, [])
  | d :: rest =>
    match validateDevice env d with
    | (some msg, t) => (some msg, t)
    | (none, t) =>
      let (e, t2) := validateDevices env rest
      (e, t ++ t2)

/-- stopRaidDevice of pkg/raid/raid.go. -/
def stopRaidDevice (env : RaidEnv) (device : String) :
    Option String × List RaidAction :=
  match env.mdadm ["--stop", device] with
  | (output, some e) =>
    (some ("Could not stop " ++ device ++ " (" ++ e ++ "): " ++ output),
     [.mdadm ["--stop", device]])
  | (_, none) => (none, [.mdadm ["--stop", device]])

/-- stopAllInactive of pkg/raid/raid.go: read the kernel array status and
stop every inactive array, ignoring per-device stop failures. -/
def stopAllInactive (env : RaidEnv) : Option String × List RaidAction :=
  match env.mdstatContent with
  | .error e =>
    (some ("Cannot open /proc/mdstat for stopping inactive: " ++ e), [.readMdstat])
  | .ok stats =>
    (none,
     .readMdstat ::
       (getInactiveDevices stats).map (fun device => .mdadm ["--stop", device]))

/-- isExistingRaidVolume of pkg/raid/raid.go: examine the device; the
returned error is always nil. -/
def isExistingRaidVolume (env : RaidEnv) (device : String) :
    Bool × List RaidAction :=
  ((env.mdadm ["--examine", device]).2.isNone, [.mdadm ["--examine", device]])

/-- wipeDevice of pkg/raid/raid.go: fail when the device does not exist,
otherwise zero its superblock ignoring the command result. -/
def wipeDevice (env : RaidEnv) (device : String) :
    Option String × List RaidAction :=
  match env.stat device with
  | .errNotExist =>
    (some ("Device " ++ device ++ " to be wiped does not exist"), [.statDevice device])
  | _ => (none, [.statDevice device, .mdadm ["--zero-superblock", device]])

/-- createNewMirror of pkg/raid/raid.go. -/
def createNewMirror (env : RaidEnv) (target : String) (devices : List String) :
    Option String × List RaidAction :=
  let args := ["--create", target, "--level", "1", "--run", "--raid-devices",
    toString devices.length] ++ devices
  match env.mdadm args with
  | (output, some e) =>
    (some ("Mirror raid creation for " ++ target ++ " failed (" ++ e ++ "): " ++ output),
     [.mdadm args])
  | (_, none) => (none, [.mdadm args])

/-- createNewStriped of pkg/raid/raid.go. -/
def createNewStriped (env : RaidEnv) (target : String) (devices : List String) :
    Option String × List RaidAction :=
  let args := ["--create", target, "--level", "0", "--run", "--raid-devices",
    toString devices.length] ++ devices
  match env.mdadm args with
  | (output, some e) =>
    (some ("Striped raid creation for " ++ target ++ " failed (" ++ e ++ "): " ++ output),
     [.mdadm args])
  | (_, none) => (none, [.mdadm args])

/-- assembleExistingStriped of pkg/raid/raid.go. -/
def assembleExistingStriped (env : RaidEnv) (target : String) (devices : List String) :
    Option String × List RaidAction :=
  let args := ["--assemble", target] ++ devices ++ ["--run"]
  match env.mdadm args with
  | (output, some e) =>
    (some ("Existing assemble failed (" ++ e ++ "): " ++ output), [.mdadm args])
  | (_, none) => (none, [.mdadm args])

/-- The wipe loop of assembleExistingMirror: wipe every device other than
the bootstrap one, ignoring errors. -/
def wipeOthers (env : RaidEnv) (existing : String) : List String → List RaidAction
  | [] => []
  | d :: rest =>
    (if d == existing then [] else (wipeDevice env d).2) ++ wipeOthers env existing rest

/-- assembleExistingMirror of pkg/raid/raid.go: wipe the non-bootstrap
members, assemble from the bootstrap device, then add the members (trying
a stop on failure). -/
def assembleExistingMirror (env : RaidEnv) (target existing : String)
    (devices : List String) : Option String × List RaidAction :=
  let wipes := wipeOthers env existing devices
  let assembleArgs := ["--assemble", target, existing, "--run"]
  match env.mdadm assembleArgs with
  | (output, some e) =>
    (some ("Could not bootstrap assemble from " ++ existing ++ " (" ++ e ++ "): " ++ output),
     wipes ++ [.mdadm assembleArgs])
  | (_, none) =>
    let addArgs := ["--add", target] ++ devices
    match env.mdadm addArgs with
    | (output, some e) =>
      (some ("Could not add other devices to existing primary " ++ existing ++
         " (" ++ e ++ "): " ++ output),
       wipes ++ [.mdadm assembleArgs, .mdadm addArgs, .mdadm ["--stop", target]])
    | (_, none) => (none, wipes ++ [.mdadm assembleArgs, .mdadm addArgs])

/-- The stripedArray receiver of pkg/raid/raid.go. -/
structure stripedArray where
  target : String
  devices : List String

/-- The first member device carrying array metadata, with the trace of the
examine probes performed (the loop stops at the first hit). -/
def findExistingMember (env : RaidEnv) : List String → Option String × List RaidAction
  | [] => (none, [])
  | d :: rest =>
    match isExistingRaidVolume env d with
    | (true, t) => (some d, t)
    | (false, t) =>
      let (r, t2) := findExistingMember env rest
      (r, t ++ t2)

/-- Init of the stripedArray receiver: succeed at once when the target
already answers a detail query; otherwise validate members, stop inactive
arrays, and assemble from existing metadata or create a fresh array. -/
def stripedArray.Init (env : RaidEnv) (s : stripedArray) :
    Option String × List RaidAction :=
  match isRaidDevice env s.target with
  | (none, t0) => (none, t0)
  | (some _, t0) =>
    match validateDevices env s.devices with
    | (some msg, t1) => (some msg, t0 ++ t1)
    | (none, t1) =>
      match stopAllInactive env with
      | (some msg, t2) => (some msg, t0 ++ t1 ++ t2)
      | (none, t2) =>
        match findExistingMember env s.devices with
        | (some _, t3) =>
          let (e, t4) := assembleExistingStriped env s.target s.devices
          (e, t0 ++ t1 ++ t2 ++ t3 ++ t4)
        | (none, t3) =>
          let (e, t4) := createNewStriped env s.target s.devices
          (e, t0 ++ t1 ++ t2 ++ t3 ++ t4)

/-- The mirrorArray receiver of pkg/raid/raid.go. -/
structure mirrorArray where
  target : String
  primary : String
  replicas : List String

/-- Init of the mirrorArray receiver: validate the primary and every
replica, stop inactive arrays, then bootstrap-assemble from the first
metadata-carrying device or create a fresh mirror.  There is no check of
the target device itself. -/
def mirrorArray.Init (env : RaidEnv) (m : mirrorArray) :
    Option String × List RaidAction :=
  match validateDevice env m.primary with
  | (some msg, t0) => (some msg, t0)
  | (none, t0) =>
    match validateDevices env m.replicas with
    | (some msg, t1) => (some msg, t0 ++ t1)
    | (none, t1) =>
      match stopAllInactive env with
      | (some msg, t2) => (some msg, t0 ++ t1 ++ t2)
      | (none, t2) =>
        match isExistingRaidVolume env m.primary with
        | (true, t3) =>
          let (e, t4) := assembleExistingMirror env m.target m.primary m.replicas
          (e, t0 ++ t1 ++ t2 ++ t3 ++ t4)
        | (false, t3) =>
          match findExistingMember env m.replicas with
          | (some repl, t5) =>
            let (e, t4) := assembleExistingMirror env m.target repl (m.primary :: m.replicas)
            (e, t0 ++ t1 ++ t2 ++ t3 ++ t5 ++ t4)
          | (none, t5) =>
            let (e, t4) := createNewMirror env m.target (m.primary :: m.replicas)
            (e, t0 ++ t1 ++ t2 ++ t3 ++ t5 ++ t4)

/-!
The local-volume factory (pkg/localvolume) and the node agent's publish
path (pkg/csi/node.go).  The common error package (pkg/common) is not part
of the sources given; following the spec, an error value either carries
the distinguished Pending kind or is an ordinary terminal error.
-/

/-- Modelled from the spec: the error kind of pkg/common (absent from the
sources).  The Pending kind is the distinguished "not yet ready, ask
again" failure, which errors.Is can tell apart from every other error. -/
inductive GoErr where
  | pending (msg : String)
  | other (msg : String)
deriving DecidableEq

/-- An external interaction of NewPDVolume. -/
inductive PDAction where
  | statDevice (path : String)
  | fromDevice (device mountPath : String)
deriving DecidableEq

/-- Outcome of os.Stat as NewPDVolume observes it. -/
inductive FileStat where
  | found
  | errNotExist
  | errOther (msg : String)
deriving DecidableEq

/-- The external world of NewPDVolume: the filesystem and the NewFromDevice
constructor of pkg/localvolume/localvolume.go (whose result is the mounted
volume path or a terminal error). -/
structure PDEnv where
  stat : String → FileStat
  fromDevice : String → String → Except GoErr String

/-- NewPDVolume of pkg/localvolume/pd.go: refuse an empty disk name with a
Pending error, derive the by-id device path, answer Pending while the
device does not exist, and otherwise construct from the device. -/
def NewPDVolume (env : PDEnv) (diskName mountPath : String) :
    Except GoErr String × List PDAction :=
  if diskName == "" then (.error (.pending "empty disk name"), [])
  else
    let device := "/dev/disk/by-id/google-" ++ diskName
    match env.stat device with
    | .errNotExist =>
      (.error (.pending ("Waiting for attach, " ++ device ++ " does not yet exist")),
       [.statDevice device])
    | _ => (env.fromDevice device mountPath, [.statDevice device, .fromDevice device mountPath])

/-- On-disk path constants of pkg/csi/node.go. -/
def tmpfsPath : String := "/local/tmpfs"

/-- The lssd array device constant of pkg/csi/node.go. -/
def lssdDevice : String := "/dev/md/lssd"

/-- The lssd mount path constant of pkg/csi/node.go. -/
def lssdPath : String := "/local/lssd"

/-- The pd mount path constant of pkg/csi/node.go. -/
def pdPath : String := "/local/pd"

/-- The external world of createCacheVolume: the result of the 500 ms/1 min
poll for the shared config map (its Data on success, the final fetch error
on timeout), and the tmpfs and local-SSD constructors of pkg/localvolume. -/
structure AgentEnv where
  pollConfigMap : Except String (List (String × String))
  newTmpfsVolume : String → Quantity → Except GoErr String
  newLocalSSDVolume : String → String → Except GoErr String
  pd : PDEnv

/-- Outcome of createCacheVolume: a local volume path, a Go error, or a
runtime panic propagated from the map parser. -/
inductive CResult where
  | ok (path : String)
  | fail (e : GoErr)
  | panics
deriving DecidableEq

/-- createCacheVolume of pkg/csi/node.go: poll for the shared config map
(a persistent fetch failure is Pending), parse the volume-type map (parse
errors are terminal), require an entry for this node (absence is Pending),
and dispatch on the entry's kind to the local-volume factory. -/
def createCacheVolume (env : AgentEnv) (nodeName mapNamespace mapName : String) :
    CResult :=
  match env.pollConfigMap with
  | .error e => .fail (.pending ("no node cache volume type found: " ++ e))
  | .ok data =>
    match getVolumeTypeMapping data with
    | .err m => .fail (.other m)
    | .panic => .panics
    | .ok types =>
      match lookupNode types nodeName with
      | none =>
        .fail (.pending ("No volume type information for " ++ nodeName ++
          " found in " ++ mapNamespace ++ "/" ++ mapName))
      | some info =>
        if info.VolumeType == "tmpfs" then
          match env.newTmpfsVolume tmpfsPath info.Size with
          | .ok p => .ok p
          | .error e => .fail e
        else if info.VolumeType == "lssd" then
          match env.newLocalSSDVolume lssdDevice lssdPath with
          | .ok p => .ok p
          | .error e => .fail e
        else if info.VolumeType == "pd" then
          match (NewPDVolume env.pd info.Disk pdPath).1 with
          | .ok p => .ok p
          | .error e => .fail e
        else .fail (.other "Unknown volume type from type info")

/-- The subset of gRPC status codes the node service constructs. -/
inductive GrpcCode where
  | invalidArgument
  | aborted
  | internal
deriving DecidableEq

/-- Outcome of the NodePublishVolume handler: success, an error built with
status.Error carrying a gRPC code, an error returned without any status
code (the bind-mount branch returns the raw error), or a runtime panic. -/
inductive PublishOutcome where
  | ok
  | statusErr (code : GrpcCode) (msg : String)
  | rawErr (msg : String)
  | panics
deriving DecidableEq

/-- Outcome of mount.IsLikelyNotMountPoint on the target path. -/
inductive MountStat where
  | ok (notMnt : Bool)
  | errNotExist
  | errOther (msg : String)
deriving DecidableEq

/-- The external world of the publish handler: the volume-construction
environment, the mount-point inspection of the target path, the result of
creating the target directory, and the result of the bind mount for the
options passed. -/
structure PublishEnv where
  agent : AgentEnv
  isLikelyNotMountPoint : MountStat
  mkdirAll : Option String
  mount : List String → Option String

/-- NodePublishVolume of pkg/csi/node.go, as a function of the driver's
stored volume pointer; returns the handler outcome together with the new
value of the pointer.  A missing target path is rejected first; then the
local volume is lazily constructed; then the target is inspected, created
if absent, and left alone if already a mount point; otherwise the local
volume's path is bind-mounted onto it (with the ro flag for a read-only
request), and a mount failure is returned as-is. -/
def NodePublishVolume (env : PublishEnv) (vol : Option String)
    (nodeName mapNamespace mapName : String)
    (targetPath : String) (readOnly : Bool) : PublishOutcome × Option String :=
  if targetPath == "" then
    (.statusErr .invalidArgument "Target path missing in request", vol)
  else
    let volRes : Except PublishOutcome String :=
      match vol with
      | some p => .ok p
      | none =>
        match createCacheVolume env.agent nodeName mapNamespace mapName with
        | .panics => .error .panics
        | .fail (.pending m) =>
          .error (.statusErr .aborted ("local volume not ready: " ++ m))
        | .fail (.other m) =>
          .error (.statusErr .internal ("local volume creation failed: " ++ m))
        | .ok p => .ok p
    match volRes with
    | .error out => (out, vol)
    | .ok p =>
      let notMntRes : Except PublishOutcome Bool :=
        match env.isLikelyNotMountPoint with
        | .ok b => .ok b
        | .errNotExist =>
          match env.mkdirAll with
          | none => .ok true
          | some m =>
            .error (.statusErr .internal ("Target mount point creation failed: " ++ m))
        | .errOther m =>
          .error (.statusErr .internal ("Target mount point exists in bad state: " ++ m))
      match notMntRes with
      | .error out => (out, some p)
      | .ok notMnt =>
        if !notMnt then (.ok, some p)
        else
          let mountOptions := if readOnly then ["bind", "ro"] else ["bind"]
          match env.mount mountOptions with
          | some m => (.rawErr m, some p)
          | none => (.ok, some p)

/-!
Concurrency model for the lazy-init section of NodePublishVolume.  The
Driver struct of pkg/csi/driver.go has no mutex, and the gRPC server runs
each call on its own goroutine, so two concurrent publishes interact only
through the shared pointer d.vol.  Each handler executes: read d.vol; if
nil, call createCacheVolume and assign the result to d.vol.  The model
interleaves the two handlers' read and construct-and-write steps over the
shared state and counts how many times construction runs.
-/

/-- Program counter of one publish handler's lazy-init section. -/
inductive TPc where
  | start
  | construct
  | done
deriving DecidableEq

/-- Shared state of two concurrent publish handlers inside one agent
process: the driver's volume pointer, how many times createCacheVolume has
run, and each handler's position. -/
structure AgentRaceState where
  vol : Option String
  constructCount : Nat
  pc1 : TPc
  pc2 : TPc
deriving DecidableEq

/-- One interleaving step of the two handlers.  A handler at start reads
d.vol: when nil it proceeds to construct, otherwise it is done.  A handler
at construct runs createCacheVolume and assigns its result to d.vol.
Nothing serializes the check with the assignment. -/
inductive RaceStep (path1 path2 : String) : AgentRaceState → AgentRaceState → Prop
  | check1Nil (s : AgentRaceState) : s.pc1 = .start → s.vol = none →
      RaceStep path1 path2 s { s with pc1 := .construct }
  | check1Set (s : AgentRaceState) (p : String) : s.pc1 = .start → s.vol = some p →
      RaceStep path1 path2 s { s with pc1 := .done }
  | run1 (s : AgentRaceState) : s.pc1 = .construct →
      RaceStep path1 path2 s
        { s with pc1 := .done, vol := some path1, constructCount := s.constructCount + 1 }
  | check2Nil (s : AgentRaceState) : s.pc2 = .start → s.vol = none →
      RaceStep path1 path2 s { s with pc2 := .construct }
  | check2Set (s : AgentRaceState) (p : String) : s.pc2 = .start → s.vol = some p →
      RaceStep path1 path2 s { s with pc2 := .done }
  | run2 (s : AgentRaceState) : s.pc2 = .construct →
      RaceStep path1 path2 s
        { s with pc2 := .done, vol := some path2, constructCount := s.constructCount + 1 }

/-- Both handlers at their first publish, volume not yet constructed. -/
def raceInit : AgentRaceState :=
  { vol := none, constructCount := 0, pc1 := .start, pc2 := .start }

/-- Reachability under any interleaving of the two handlers. -/
def RaceReachable (path1 path2 : String) : AgentRaceState → AgentRaceState → Prop :=
  Relation.ReflTransGen (RaceStep path1 path2)

/-!
The node-label reader getVolumeTypeFromNode of pkg/csi/node.go.  The label
key constants live in pkg/common, which is absent from the sources.
-/

/-- Modelled from the spec: the cache-kind label key of pkg/common (the
README documents the key node-cache.gke.io). -/
def VolumeTypeLabel : String := "node-cache.gke.io"

/-- Modelled from the spec: the size label key of pkg/common (the README
documents the key node-cache-size.gke.io holding an orchestrator-standard
quantity). -/
def SizeLabel : String := "node-cache-size.gke.io"

/-- getVolumeTypeFromNode of pkg/csi/node.go: require the cache-kind label
(absence is a not-found error), and parse the size label as a quantity
when present (an unparsable value is a terminal error).  No disk is taken
from labels. -/
def getVolumeTypeFromNode (nodeName : String) (labels : List (String × String)) :
    Except String volumeTypeInfo :=
  match lookupKey labels VolumeTypeLabel with
  | none => .error (VolumeTypeLabel ++ " label not found on node " ++ nodeName)
  | some volumeType =>
    match lookupKey labels SizeLabel with
    | none => .ok { VolumeType := volumeType, Size := ⟨""⟩, Disk := "" }
    | some szStr =>
      match parseQuantity szStr with
      | none =>
        .error ("bad size label " ++ SizeLabel ++ "=" ++ szStr ++ " on " ++ nodeName)
      | some q => .ok { VolumeType := volumeType, Size := q, Disk := "" }

/-!
Supporting lemmas about the string primitives and the codec.
-/

instance {ε α : Type} [DecidableEq ε] [DecidableEq α] : DecidableEq (Except ε α) := fun x y =>
  match x, y with
  | .error a, .error b =>
    if h : a = b then isTrue (congrArg Except.error h)
    else isFalse (fun hc => h (Except.error.inj hc))
  | .ok a, .ok b =>
    if h : a = b then isTrue (congrArg Except.ok h)
    else isFalse (fun hc => h (Except.ok.inj hc))
  | .error _, .ok _ => isFalse (fun hc => Except.noConfusion hc)
  | .ok _, .error _ => isFalse (fun hc => Except.noConfusion hc)

theorem trimLeftChars_eq_self {l : List Char} (h : ∀ c ∈ l, goIsSpace c = false) :
    trimLeftChars l = l := by
  cases l with
  | nil => rfl
  | cons c rest => simp [trimLeftChars, h c (by simp)]

theorem trimChars_eq_self {l : List Char} (h : ∀ c ∈ l, goIsSpace c = false) :
    trimChars l = l := by
  unfold trimChars
  rw [trimLeftChars_eq_self (fun c hc => h c (List.mem_reverse.mp hc)),
    List.reverse_reverse, trimLeftChars_eq_self h]

theorem goTrimSpace_eq_self {s : String} (h : ∀ c ∈ s.data, goIsSpace c = false) :
    goTrimSpace s = s := by
  unfold goTrimSpace
  rw [trimChars_eq_self h]

theorem splitOnChar_ne_nil (c : Char) (l : List Char) : splitOnChar c l ≠ [] := by
  induction l with
  | nil => simp [splitOnChar]
  | cons a rest ih =>
    simp only [splitOnChar]
    cases hr : splitOnChar c rest with
    | nil => exact absurd hr ih
    | cons g gs => by_cases hac : (a == c) = true <;> simp [hac]

theorem splitOnChar_not_mem {c : Char} {l : List Char} (h : c ∉ l) :
    splitOnChar c l = [l] := by
  induction l with
  | nil => rfl
  | cons a rest ih =>
    have ha : (a == c) = false := by
      simp only [beq_eq_false_iff_ne, ne_eq]
      rintro rfl
      exact h (List.mem_cons_self a rest)
    have hr : splitOnChar c rest = [rest] := ih (fun hm => h (List.mem_cons_of_mem a hm))
    simp [splitOnChar, hr, ha]

theorem splitOnChar_append {c : Char} {xs ys : List Char} (h : c ∉ xs) :
    splitOnChar c (xs ++ c :: ys) = xs :: splitOnChar c ys := by
  induction xs with
  | nil =>
    simp only [List.nil_append, splitOnChar]
    cases hr : splitOnChar c ys with
    | nil => exact absurd hr (splitOnChar_ne_nil c ys)
    | cons g gs => simp
  | cons a rest ih =>
    have ha : (a == c) = false := by
      simp only [beq_eq_false_iff_ne, ne_eq]
      rintro rfl
      exact h (List.mem_cons_self a rest)
    have hr := ih (fun hm => h (List.mem_cons_of_mem a hm))
    rw [List.cons_append, splitOnChar, hr, ha]
    simp

theorem splitOnChar_joinChar {c : Char} {ls : List (List Char)} (h : ls ≠ [])
    (h2 : ∀ l ∈ ls, c ∉ l) : splitOnChar c (joinChar c ls) = ls := by
  induction ls with
  | nil => exact absurd rfl h
  | cons l rest ih =>
    cases rest with
    | nil => exact splitOnChar_not_mem (h2 l (by simp))
    | cons l2 rest2 =>
      have hj : joinChar c (l :: l2 :: rest2) = l ++ c :: joinChar c (l2 :: rest2) := rfl
      rw [hj, splitOnChar_append (h2 l (by simp)),
        ih (by simp) (fun x hx => h2 x (List.mem_cons_of_mem l hx))]

theorem goSplit_goJoin {c : Char} {ls : List String} (h : ls ≠ [])
    (h2 : ∀ s ∈ ls, c ∉ s.data) : goSplit (goJoin ls c) c = ls := by
  unfold goSplit goJoin
  have hd : (String.mk (joinChar c (ls.map String.data))).data
      = joinChar c (ls.map String.data) := rfl
  rw [hd, splitOnChar_joinChar (by simpa using h)
    (by intro l hl
        rcases List.mem_map.mp hl with ⟨s, hs, rfl⟩
        exact h2 s hs)]
  rw [List.map_map]
  calc ls.map (String.mk ∘ String.data) = ls.map id := List.map_congr_left (fun s _ => rfl)
    _ = ls := List.map_id ls

theorem breakOnChar_not_mem {c : Char} {l : List Char} (h : c ∉ l) :
    breakOnChar c l = none := by
  induction l with
  | nil => rfl
  | cons a rest ih =>
    have ha : (a == c) = false := by
      simp only [beq_eq_false_iff_ne, ne_eq]
      rintro rfl
      exact h (List.mem_cons_self a rest)
    simp [breakOnChar, ha, ih (fun hm => h (List.mem_cons_of_mem a hm))]

theorem breakOnChar_append {c : Char} {xs ys : List Char} (h : c ∉ xs) :
    breakOnChar c (xs ++ c :: ys) = some (xs, ys) := by
  induction xs with
  | nil => simp [breakOnChar]
  | cons a rest ih =>
    have ha : (a == c) = false := by
      simp only [beq_eq_false_iff_ne, ne_eq]
      rintro rfl
      exact h (List.mem_cons_self a rest)
    simp [breakOnChar, ha, ih (fun hm => h (List.mem_cons_of_mem a hm))]

theorem cleanToken_spec {s : String} (h : cleanToken s = true) :
    ∀ c ∈ s.data, goIsSpace c = false ∧ c ≠ ',' ∧ c ≠ '\n' := by
  intro c hc
  have := (List.all_eq_true.mp h) c hc
  simp only [Bool.and_eq_true, Bool.not_eq_true', bne_iff_ne, ne_eq] at this
  exact ⟨this.1.1, this.1.2, this.2⟩

theorem cleanToken_trim {s : String} (h : cleanToken s = true) : goTrimSpace s = s :=
  goTrimSpace_eq_self (fun c hc => (cleanToken_spec h c hc).1)

theorem cleanToken_comma {s : String} (h : cleanToken s = true) : ',' ∉ s.data :=
  fun hm => (cleanToken_spec h ',' hm).2.1 rfl

/-- The comma-separated fields after the node name on an encoded line. -/
def infoItems (info : volumeTypeInfo) : List String :=
  ("type=" ++ info.VolumeType) ::
    ((if info.Size.IsZero then [] else ["size=" ++ info.Size.string]) ++
      (if info.Disk == "" then [] else ["disk=" ++ info.Disk]))

theorem encodeInfoLine_eq_join (node : String) (info : volumeTypeInfo) :
    encodeInfoLine node info = goJoin (node :: infoItems info) ',' := by
  rcases info with ⟨vt, q, dk⟩
  apply String.ext
  unfold encodeInfoLine infoItems goJoin
  by_cases hz : Quantity.IsZero q <;> by_cases hd : (dk == "") = true <;>
    simp only [hz, hd, if_true, if_false, Bool.not_eq_true] <;>
    simp [joinChar, String.data_append, List.append_assoc]

theorem sizeWellFormed_items {q : Quantity} (hw : sizeWellFormed q = true)
    (hz : Quantity.IsZero q = false) :
    q.s ≠ "" ∧ checkQuantityChars q.s.data = true ∧ cleanToken q.s = true := by
  unfold sizeWellFormed at hw
  unfold Quantity.IsZero at hz
  rcases Bool.or_eq_false_iff.mp hz with ⟨hs, hdz⟩
  simp only [hs, Bool.false_or, Bool.and_eq_true] at hw
  exact ⟨by simpa using hs, hw.1.1, hw.2⟩

theorem sizeWellFormed_zero {q : Quantity} (hw : sizeWellFormed q = true)
    (hz : Quantity.IsZero q = true) : q.s = "" := by
  unfold sizeWellFormed at hw
  unfold Quantity.IsZero at hz
  by_cases hs : (q.s == "") = true
  · exact by simpa using hs
  · simp only [hs, Bool.false_or, Bool.and_eq_true] at hw hz
    rw [hz] at hw
    exact absurd hw.1.2 (by simp)

theorem noSpaceTypeLit : ∀ x ∈ (",type=" : String).data, goIsSpace x = false := by decide

theorem noSpaceSizeLit : ∀ x ∈ (",size=" : String).data, goIsSpace x = false := by decide

theorem noSpaceDiskLit : ∀ x ∈ (",disk=" : String).data, goIsSpace x = false := by decide

theorem encode_noSpace {node : String} {info : volumeTypeInfo}
    (hn : cleanToken node = true) (hi : wellFormedInfo info = true) :
    ∀ c ∈ (encodeInfoLine node info).data, goIsSpace c = false := by
  rcases info with ⟨vt, q, dk⟩
  obtain ⟨⟨h1, h2⟩, h3⟩ : (cleanToken vt = true ∧ sizeWellFormed q = true) ∧
      ((dk == "") || cleanToken dk) = true := by
    unfold wellFormedInfo at hi
    simp only [Bool.and_eq_true] at hi
    exact hi
  intro c hc
  unfold encodeInfoLine at hc
  by_cases hz : Quantity.IsZero q = true <;> by_cases hd : (dk == "") = true <;>
    simp only [hz, hd, if_true, if_false, Bool.false_eq_true, String.data_append,
      List.mem_append] at hc
  · rcases hc with (h | h) | h
    · exact (cleanToken_spec hn c h).1
    · exact noSpaceTypeLit c h
    · exact (cleanToken_spec h1 c h).1
  · have hdk : cleanToken dk = true := by simpa [hd] using h3
    rcases hc with (((h | h) | h) | h) | h
    · exact (cleanToken_spec hn c h).1
    · exact noSpaceTypeLit c h
    · exact (cleanToken_spec h1 c h).1
    · exact noSpaceDiskLit c h
    · exact (cleanToken_spec hdk c h).1
  · obtain ⟨hs, hq, hcl⟩ := sizeWellFormed_items h2 (by simpa using hz)
    have hstr : q.string = q.s := by
      unfold Quantity.string
      simp [hs]
    rw [hstr] at hc
    rcases hc with (((h | h) | h) | h) | h
    · exact (cleanToken_spec hn c h).1
    · exact noSpaceTypeLit c h
    · exact (cleanToken_spec h1 c h).1
    · exact noSpaceSizeLit c h
    · exact (cleanToken_spec hcl c h).1
  · obtain ⟨hs, hq, hcl⟩ := sizeWellFormed_items h2 (by simpa using hz)
    have hdk : cleanToken dk = true := by simpa [hd] using h3
    have hstr : q.string = q.s := by
      unfold Quantity.string
      simp [hs]
    rw [hstr] at hc
    rcases hc with (((((h | h) | h) | h) | h) | h) | h
    · exact (cleanToken_spec hn c h).1
    · exact noSpaceTypeLit c h
    · exact (cleanToken_spec h1 c h).1
    · exact noSpaceSizeLit c h
    · exact (cleanToken_spec hcl c h).1
    · exact noSpaceDiskLit c h
    · exact (cleanToken_spec hdk c h).1

theorem parseItem_type {line vt : String} (info : volumeTypeInfo) (h : cleanToken vt = true) :
    parseItem line info ("type=" ++ vt) = .ok { info with VolumeType := vt } := by
  have hsplit : goSplitN2 ("type=" ++ vt) '=' = ["type", vt] := by
    unfold goSplitN2
    rw [String.data_append,
      show ("type=" : String).data = 't' :: 'y' :: 'p' :: 'e' :: '=' :: [] from by decide,
      show 't' :: 'y' :: 'p' :: 'e' :: '=' :: [] ++ vt.data
          = ("type" : String).data ++ '=' :: vt.data from rfl,
      breakOnChar_append (by decide)]
  unfold parseItem
  rw [hsplit]
  simp only [List.headD_cons, show goTrimSpace "type" = "type" from by decide,
    show (("type" : String) == "type") = true from by decide, if_true, List.get?]
  rw [cleanToken_trim h]

theorem parseItem_size {line sz : String} (info : volumeTypeInfo)
    (hq : checkQuantityChars sz.data = true) (hcl : cleanToken sz = true) :
    parseItem line info ("size=" ++ sz) = .ok { info with Size := ⟨sz⟩ } := by
  have hsplit : goSplitN2 ("size=" ++ sz) '=' = ["size", sz] := by
    unfold goSplitN2
    rw [String.data_append,
      show ("size=" : String).data = 's' :: 'i' :: 'z' :: 'e' :: '=' :: [] from by decide,
      show 's' :: 'i' :: 'z' :: 'e' :: '=' :: [] ++ sz.data
          = ("size" : String).data ++ '=' :: sz.data from rfl,
      breakOnChar_append (by decide)]
  unfold parseItem
  rw [hsplit]
  simp only [List.headD_cons, show goTrimSpace "size" = "size" from by decide,
    show (("size" : String) == "type") = false from by decide,
    show (("size" : String) == "size") = true from by decide,
    Bool.false_eq_true, if_false, if_true, List.get?]
  rw [cleanToken_trim hcl]
  unfold parseQuantity
  rw [hq]
  simp

theorem parseItem_disk {line dk : String} (info : volumeTypeInfo) (h : cleanToken dk = true) :
    parseItem line info ("disk=" ++ dk) = .ok { info with Disk := dk } := by
  have hsplit : goSplitN2 ("disk=" ++ dk) '=' = ["disk", dk] := by
    unfold goSplitN2
    rw [String.data_append,
      show ("disk=" : String).data = 'd' :: 'i' :: 's' :: 'k' :: '=' :: [] from by decide,
      show 'd' :: 'i' :: 's' :: 'k' :: '=' :: [] ++ dk.data
          = ("disk" : String).data ++ '=' :: dk.data from rfl,
      breakOnChar_append (by decide)]
  unfold parseItem
  rw [hsplit]
  simp only [List.headD_cons, show goTrimSpace "disk" = "disk" from by decide,
    show (("disk" : String) == "type") = false from by decide,
    show (("disk" : String) == "size") = false from by decide,
    show (("disk" : String) == "disk") = true from by decide,
    Bool.false_eq_true, if_false, if_true, List.get?]
  rw [cleanToken_trim h]

theorem parseItems_cons (line : String) (info : volumeTypeInfo) (item : String)
    (rest : List String) :
    parseItems line info (item :: rest) =
      match parseItem line info item with
      | .ok info2 => parseItems line info2 rest
      | .err m => .err m
      | .panic => .panic := rfl

theorem parseItems_encode {line : String} (info : volumeTypeInfo)
    (hi : wellFormedInfo info = true) :
    parseItems line volumeTypeInfo.zero (infoItems info) = .ok info := by
  rcases info with ⟨vt, q, dk⟩
  obtain ⟨⟨h1, h2⟩, h3⟩ : (cleanToken vt = true ∧ sizeWellFormed q = true) ∧
      ((dk == "") || cleanToken dk) = true := by
    unfold wellFormedInfo at hi
    simp only [Bool.and_eq_true] at hi
    exact hi
  by_cases hz : Quantity.IsZero q = true <;> by_cases hd : (dk == "") = true
  · have hq : q = ⟨""⟩ := by
      rcases q with ⟨qs⟩
      rw [show Quantity.mk qs = Quantity.mk "" from congrArg Quantity.mk
        (sizeWellFormed_zero h2 hz)]
    have hdk : dk = "" := by simpa using hd
    subst hq hdk
    simp only [infoItems, hz, if_true, beq_self_eq_true, List.append_nil, List.nil_append]
    simp only [parseItems_cons, parseItem_type volumeTypeInfo.zero h1]
    rfl
  · have hq : q = ⟨""⟩ := by
      rcases q with ⟨qs⟩
      rw [show Quantity.mk qs = Quantity.mk "" from congrArg Quantity.mk
        (sizeWellFormed_zero h2 hz)]
    have hdk : cleanToken dk = true := by simpa [hd] using h3
    subst hq
    simp only [infoItems, hz, hd, if_true, Bool.false_eq_true, if_false, List.nil_append]
    simp only [parseItems_cons, parseItem_type volumeTypeInfo.zero h1,
      parseItem_disk _ hdk]
    rfl
  · obtain ⟨hs, hq, hcl⟩ := sizeWellFormed_items h2 (by simpa using hz)
    have hdk : dk = "" := by simpa using hd
    subst hdk
    have hstr : q.string = q.s := by
      unfold Quantity.string
      simp [hs]
    simp only [infoItems, hz, hd, Bool.false_eq_true, if_false, beq_self_eq_true, if_true,
      List.append_nil, hstr]
    simp only [parseItems_cons, parseItem_type volumeTypeInfo.zero h1,
      parseItem_size _ hq hcl]
    rcases q with ⟨qs⟩
    rfl
  · obtain ⟨hs, hq, hcl⟩ := sizeWellFormed_items h2 (by simpa using hz)
    have hdk : cleanToken dk = true := by simpa [hd] using h3
    have hstr : q.string = q.s := by
      unfold Quantity.string
      simp [hs]
    simp only [infoItems, hz, hd, Bool.false_eq_true, if_false, hstr]
    simp only [List.cons_append, List.singleton_append, List.nil_append]
    simp only [parseItems_cons, parseItem_type volumeTypeInfo.zero h1,
      parseItem_size _ hq hcl, parseItem_disk _ hdk]
    rcases q with ⟨qs⟩
    rfl

theorem infoItems_commaFree {info : volumeTypeInfo} (hi : wellFormedInfo info = true) :
    ∀ s ∈ infoItems info, ',' ∉ s.data := by
  rcases info with ⟨vt, q, dk⟩
  obtain ⟨⟨h1, h2⟩, h3⟩ : (cleanToken vt = true ∧ sizeWellFormed q = true) ∧
      ((dk == "") || cleanToken dk) = true := by
    unfold wellFormedInfo at hi
    simp only [Bool.and_eq_true] at hi
    exact hi
  have htype : ',' ∉ ("type=" ++ vt).data := by
    rw [String.data_append]
    intro hm
    rcases List.mem_append.mp hm with h | h
    · revert h; decide
    · exact cleanToken_comma h1 h
  have hsize : Quantity.IsZero q = false → ',' ∉ ("size=" ++ q.string).data := by
    intro hz
    obtain ⟨hs, _, hcl⟩ := sizeWellFormed_items h2 hz
    have hstr : q.string = q.s := by
      unfold Quantity.string
      simp [hs]
    rw [hstr, String.data_append]
    intro hm
    rcases List.mem_append.mp hm with h | h
    · revert h; decide
    · exact cleanToken_comma hcl h
  have hdisk : (dk == "") = false → ',' ∉ ("disk=" ++ dk).data := by
    intro hd
    have hdk : cleanToken dk = true := by simpa [hd] using h3
    rw [String.data_append]
    intro hm
    rcases List.mem_append.mp hm with h | h
    · revert h; decide
    · exact cleanToken_comma hdk h
  intro s hs
  unfold infoItems at hs
  by_cases hz : Quantity.IsZero q = true <;> by_cases hd : (dk == "") = true <;>
    simp only [hz, hd, if_true, Bool.false_eq_true, if_false, List.append_nil,
      List.nil_append, List.mem_cons, List.mem_singleton, List.mem_append,
      List.not_mem_nil, or_false] at hs
  · subst hs
    exact htype
  · rcases hs with rfl | rfl
    · exact htype
    · exact hdisk (by simpa using hd)
  · rcases hs with rfl | rfl
    · exact htype
    · exact hsize (by simpa using hz)
  · rcases hs with rfl | rfl | rfl
    · exact htype
    · exact hsize (by simpa using hz)
    · exact hdisk (by simpa using hd)

theorem parseLine_encode (tm : List (String × volumeTypeInfo)) (node : String)
    (info : volumeTypeInfo) (hn : cleanToken node = true) (hi : wellFormedInfo info = true)
    (hdup : lookupNode tm node = none) :
    parseLine tm (encodeInfoLine node info) = .ok (tm ++ [(node, info)]) := by
  have hns := encode_noSpace hn hi
  have htrim : goTrimSpace (encodeInfoLine node info) = encodeInfoLine node info :=
    goTrimSpace_eq_self hns
  have hcomma : ',' ∈ (encodeInfoLine node info).data := by
    rw [encodeInfoLine_eq_join]
    show ',' ∈ (joinChar ',' (node.data :: ("type=" ++ info.VolumeType).data :: _))
    exact List.mem_append_right _ (List.mem_cons_self _ _)
  have hne : (encodeInfoLine node info == "") = false := by
    refine beq_eq_false_iff_ne.mpr fun he => ?_
    rw [he] at hcomma
    exact absurd hcomma (by decide)
  have hsplit : goSplit (encodeInfoLine node info) ',' = node :: infoItems info := by
    rw [encodeInfoLine_eq_join]
    refine goSplit_goJoin (by simp) ?_
    intro s hs
    rcases List.mem_cons.mp hs with rfl | hs2
    · exact cleanToken_comma hn
    · exact infoItems_commaFree hi s hs2
  have hlen : ((node :: infoItems info).length < 2) = False := by
    simp only [infoItems, List.length_cons, eq_iff_iff, iff_false, not_lt]
    omega
  simp only [parseLine, htrim, hne, Bool.false_eq_true, if_false, hsplit, hlen,
    List.headD_cons, List.tail_cons, cleanToken_trim hn, hdup, Option.isSome_none,
    parseItems_encode info hi]

theorem parseLines_cons (tm : List (String × volumeTypeInfo)) (l : String)
    (rest : List String) :
    parseLines tm (l :: rest) =
      match parseLine tm l with
      | .ok tm2 => parseLines tm2 rest
      | .err m => .err m
      | .panic => .panic := rfl

theorem lookupNode_eq_none_of_not_mem {m : List (String × volumeTypeInfo)} {node : String}
    (h : node ∉ m.map Prod.fst) : lookupNode m node = none := by
  unfold lookupNode
  cases hf : m.find? (fun p => p.1 == node) with
  | none => rfl
  | some p =>
    have hp : p.1 = node := by simpa using List.find?_some hf
    have hmem := List.mem_of_find?_eq_some hf
    exact absurd (hp ▸ List.mem_map_of_mem Prod.fst hmem) h

theorem parseLines_encode (entries : List (String × volumeTypeInfo)) :
    ∀ tm : List (String × volumeTypeInfo),
    (∀ p ∈ entries, cleanToken p.1 = true ∧ wellFormedInfo p.2 = true) →
    ((tm ++ entries).map Prod.fst).Nodup →
    parseLines tm (entries.map (fun p => encodeInfoLine p.1 p.2)) = .ok (tm ++ entries) := by
  induction entries with
  | nil => intro tm _ _; simp [parseLines]
  | cons p rest ih =>
    intro tm hwf hnd
    have hp := hwf p (List.mem_cons_self p rest)
    have hdup : lookupNode tm p.1 = none := by
      apply lookupNode_eq_none_of_not_mem
      intro hmem
      rw [List.map_append] at hnd
      rcases List.nodup_append.mp hnd with ⟨_, _, hdisj⟩
      exact hdisj hmem (by simp)
    have hnd2 : (((tm ++ [p]) ++ rest).map Prod.fst).Nodup := by
      rw [List.append_assoc, List.singleton_append]
      exact hnd
    have h2 := ih (tm ++ [p]) (fun x hx => hwf x (List.mem_cons_of_mem p hx)) hnd2
    rw [List.map_cons, parseLines_cons, parseLine_encode tm p.1 p.2 hp.1 hp.2 hdup]
    simpa [List.append_assoc] using h2

theorem lookupNode_cons (p : String × volumeTypeInfo) (m : List (String × volumeTypeInfo))
    (k : String) :
    lookupNode (p :: m) k = if p.1 == k then some p.2 else lookupNode m k := by
  unfold lookupNode
  rw [List.find?]
  by_cases hp : (p.1 == k) = true <;> simp [hp]

theorem lookupNode_perm {m₁ m₂ : List (String × volumeTypeInfo)} (h : m₁.Perm m₂)
    (hn : (m₂.map Prod.fst).Nodup) : ∀ k, lookupNode m₁ k = lookupNode m₂ k := by
  induction h with
  | nil => intro k; rfl
  | cons p hperm ih =>
    intro k
    rw [lookupNode_cons, lookupNode_cons]
    by_cases hp : (p.1 == k) = true
    · simp [hp]
    · simp only [hp, Bool.false_eq_true, if_false]
      exact ih (by rw [List.map_cons] at hn; exact (List.nodup_cons.mp hn).2) k
  | swap x y t =>
    intro k
    rw [lookupNode_cons, lookupNode_cons, lookupNode_cons, lookupNode_cons]
    by_cases hx : (x.1 == k) = true <;> by_cases hy : (y.1 == k) = true
    · exfalso
      have hx2 : x.1 = k := by simpa using hx
      have hy2 : y.1 = k := by simpa using hy
      rw [List.map_cons, List.map_cons] at hn
      exact (List.nodup_cons.mp hn).1 (by rw [hx2, ← hy2]; exact List.mem_cons_self _ _)
    · simp [hx, hy]
    · simp [hx, hy]
    · simp [hx, hy]
  | trans h₁ h₂ ih₁ ih₂ =>
    intro k
    rw [ih₁ (((h₂.map Prod.fst).nodup_iff).mpr hn) k, ih₂ hn k]

/-- Left inverse of the per-line encoder, used to transport the parse of a
sorted line list back to the original map. -/
def decodeEntry (line : String) : String × volumeTypeInfo :=
  match parseLine [] line with
  | .ok [p] => p
  | _ => ("", volumeTypeInfo.zero)

theorem decodeEntry_encode {node : String} {info : volumeTypeInfo}
    (hn : cleanToken node = true) (hi : wellFormedInfo info = true) :
    decodeEntry (encodeInfoLine node info) = (node, info) := by
  unfold decodeEntry
  rw [parseLine_encode [] node info hn hi rfl]
  rfl

theorem find?_overwrite (k v : String) : ∀ data : List (String × String),
    data.any (fun p => p.1 == k) = true →
    (data.map (fun p => if p.1 == k then (k, v) else p)).find? (fun p => p.1 == k)
      = some (k, v) := by
  intro data
  induction data with
  | nil => intro h; simp at h
  | cons p rest ih =>
    intro h
    by_cases hp : (p.1 == k) = true
    · simp [hp, List.find?]
    · have h2 : rest.any (fun p => p.1 == k) = true := by
        rcases List.any_eq_true.mp h with ⟨x, hx, hxk⟩
        rcases List.mem_cons.mp hx with rfl | hx2
        · exact absurd hxk hp
        · exact List.any_eq_true.mpr ⟨x, hx2, hxk⟩
      simp only [List.map_cons, hp, Bool.false_eq_true, if_false, List.find?]
      exact ih h2

theorem find?_append_key (k v : String) : ∀ data : List (String × String),
    data.any (fun p => p.1 == k) = false →
    (data ++ [(k, v)]).find? (fun p => p.1 == k) = some (k, v) := by
  intro data
  induction data with
  | nil => intro _; simp [List.find?]
  | cons p rest ih =>
    intro h
    rw [List.any_cons] at h
    rcases Bool.or_eq_false_iff.mp h with ⟨hp, hrest⟩
    rw [List.cons_append, List.find?, hp]
    exact ih hrest

theorem lookupKey_setKey (data : List (String × String)) (k v : String) :
    lookupKey (setKey data k v) k = some v := by
  unfold lookupKey setKey
  by_cases h : data.any (fun p => p.1 == k) = true
  · rw [if_pos h, find?_overwrite k v data h]
  · rw [if_neg h, find?_append_key k v data (by rwa [Bool.not_eq_true] at h)]

theorem insertSorted_perm (x : String) (l : List String) :
    (insertSorted x l).Perm (x :: l) := by
  induction l with
  | nil => exact List.Perm.refl _
  | cons y rest ih =>
    unfold insertSorted
    by_cases h : strLeb x y = true
    · rw [if_pos h]
    · rw [if_neg h]
      exact (ih.cons y).trans (List.Perm.swap x y rest)

theorem sortStrings_perm (l : List String) : (sortStrings l).Perm l := by
  induction l with
  | nil => exact List.Perm.refl _
  | cons x rest ih =>
    exact (insertSorted_perm x (sortStrings rest)).trans (ih.cons x)

theorem charListLe_total (a : List Char) : ∀ b, charListLe a b = true ∨ charListLe b a = true := by
  induction a with
  | nil => intro b; left; rfl
  | cons x xs ih =>
    intro b
    cases b with
    | nil => right; rfl
    | cons y ys =>
      unfold charListLe
      by_cases h1 : x.toNat < y.toNat
      · left; rw [if_pos h1]
      · by_cases h2 : y.toNat < x.toNat
        · right; rw [if_pos h2]
        · rw [if_neg h1, if_neg h2, if_neg h2, if_neg h1]
          exact ih ys

theorem strLeb_total (a b : String) : strLeb a b = true ∨ strLeb b a = true :=
  charListLe_total a.data b.data

theorem mem_insertSorted {x y : String} {l : List String}
    (h : y ∈ insertSorted x l) : y = x ∨ y ∈ l := by
  induction l with
  | nil => left; simpa [insertSorted] using h
  | cons z rest ih =>
    unfold insertSorted at h
    by_cases hc : strLeb x z = true
    · rw [if_pos hc] at h
      simpa using h
    · rw [if_neg hc] at h
      rcases List.mem_cons.mp h with rfl | h2
      · exact Or.inr (List.mem_cons_self _ _)
      · rcases ih h2 with h3 | h3
        · exact Or.inl h3
        · exact Or.inr (List.mem_cons_of_mem _ h3)

theorem charListLe_cons_iff {x y : Char} {xs ys : List Char} :
    charListLe (x :: xs) (y :: ys) = true ↔
      (x.toNat < y.toNat ∨ (x.toNat = y.toNat ∧ charListLe xs ys = true)) := by
  show (if x.toNat < y.toNat then true
      else if y.toNat < x.toNat then false
      else charListLe xs ys) = true ↔ _
  by_cases h1 : x.toNat < y.toNat
  · rw [if_pos h1]
    simp [h1]
  · rw [if_neg h1]
    by_cases h2 : y.toNat < x.toNat
    · rw [if_pos h2]
      constructor
      · intro h; cases h
      · rintro (h | ⟨h, _⟩) <;> omega
    · rw [if_neg h2]
      constructor
      · intro h; exact Or.inr ⟨by omega, h⟩
      · rintro (h | ⟨_, h⟩)
        · omega
        · exact h

theorem charListLe_trans (a : List Char) : ∀ b c, charListLe a b = true →
    charListLe b c = true → charListLe a c = true := by
  induction a with
  | nil => intro b c _ _; rfl
  | cons x xs ih =>
    intro b c hab hbc
    cases b with
    | nil => exact absurd hab (by simp [charListLe])
    | cons y ys =>
      cases c with
      | nil => exact absurd hbc (by simp [charListLe])
      | cons z zs =>
        rcases charListLe_cons_iff.mp hab with h1 | ⟨h1, h1r⟩ <;>
          rcases charListLe_cons_iff.mp hbc with h2 | ⟨h2, h2r⟩
        · exact charListLe_cons_iff.mpr (Or.inl (by omega))
        · exact charListLe_cons_iff.mpr (Or.inl (by omega))
        · exact charListLe_cons_iff.mpr (Or.inl (by omega))
        · exact charListLe_cons_iff.mpr (Or.inr ⟨by omega, ih ys zs h1r h2r⟩)

theorem strLeb_trans {a b c : String} (h1 : strLeb a b = true) (h2 : strLeb b c = true) :
    strLeb a c = true :=
  charListLe_trans a.data b.data c.data h1 h2

theorem strLeb_of_not {a b : String} (h : ¬strLeb a b = true) : strLeb b a = true := by
  rcases strLeb_total a b with h2 | h2
  · exact absurd h2 h
  · exact h2

theorem insertSorted_sorted {x : String} {l : List String}
    (h : l.Pairwise (fun a b => strLeb a b = true)) :
    (insertSorted x l).Pairwise (fun a b => strLeb a b = true) := by
  induction l with
  | nil => simp [insertSorted]
  | cons y rest ih =>
    rcases List.pairwise_cons.mp h with ⟨hy, hrest⟩
    unfold insertSorted
    by_cases hc : strLeb x y = true
    · rw [if_pos hc]
      refine List.pairwise_cons.mpr ⟨?_, h⟩
      intro z hz
      rcases List.mem_cons.mp hz with rfl | hz2
      · exact hc
      · exact strLeb_trans hc (hy z hz2)
    · rw [if_neg hc]
      refine List.pairwise_cons.mpr ⟨?_, ih hrest⟩
      intro z hz
      rcases mem_insertSorted hz with rfl | hz2
      · exact strLeb_of_not hc
      · exact hy z hz2

theorem sortStrings_sorted (l : List String) :
    (sortStrings l).Pairwise (fun a b => strLeb a b = true) := by
  induction l with
  | nil => simp [sortStrings]
  | cons x rest ih => exact insertSorted_sorted ih

/-- Claim C1 supporting fact: the encoded lines of the map parse back, in
any order, to a map with the same lookups. -/
theorem parse_of_sorted_encode (m : List (String × volumeTypeInfo))
    (hwf : wellFormedMap m) :
    parseLines [] (sortStrings (m.map (fun p => encodeInfoLine p.1 p.2)))
        = .ok ((sortStrings (m.map (fun p => encodeInfoLine p.1 p.2))).map decodeEntry) ∧
      ((sortStrings (m.map (fun p => encodeInfoLine p.1 p.2))).map decodeEntry).Perm m := by
  obtain ⟨hnd, hcl⟩ := hwf
  have hperm : (sortStrings (m.map (fun p => encodeInfoLine p.1 p.2))).Perm
      (m.map (fun p => encodeInfoLine p.1 p.2)) := sortStrings_perm _
  have hdec : ∀ p ∈ m, decodeEntry (encodeInfoLine p.1 p.2) = p := by
    intro p hp
    rw [decodeEntry_encode (hcl p hp).1 (hcl p hp).2]
  have hm2perm : ((sortStrings (m.map (fun p => encodeInfoLine p.1 p.2))).map decodeEntry).Perm m := by
    have h1 := hperm.map decodeEntry
    rw [List.map_map] at h1
    have h2 : m.map (decodeEntry ∘ fun p => encodeInfoLine p.1 p.2) = m := by
      rw [show m.map (decodeEntry ∘ fun p => encodeInfoLine p.1 p.2) = m.map id from
        List.map_congr_left (fun p hp => by
          simp only [Function.comp_apply, id_eq]
          exact hdec p hp), List.map_id]
    rwa [h2] at h1
  refine ⟨?_, hm2perm⟩
  have hlines_eq :
      ((sortStrings (m.map (fun p => encodeInfoLine p.1 p.2))).map decodeEntry).map
        (fun p => encodeInfoLine p.1 p.2)
      = sortStrings (m.map (fun p => encodeInfoLine p.1 p.2)) := by
    rw [List.map_map]
    rw [show (sortStrings (m.map (fun p => encodeInfoLine p.1 p.2))).map
        ((fun p => encodeInfoLine p.1 p.2) ∘ decodeEntry)
      = (sortStrings (m.map (fun p => encodeInfoLine p.1 p.2))).map id from ?_, List.map_id]
    apply List.map_congr_left
    intro l hl
    simp only [Function.comp_apply, id_eq]
    rcases List.mem_map.mp (hperm.mem_iff.mp hl) with ⟨p, hp, rfl⟩
    rw [hdec p hp]
  have hwf2 : ∀ p ∈ (sortStrings (m.map (fun p => encodeInfoLine p.1 p.2))).map decodeEntry,
      cleanToken p.1 = true ∧ wellFormedInfo p.2 = true :=
    fun p hp => hcl p (hm2perm.mem_iff.mp hp)
  have hnd2 : ((((sortStrings (m.map (fun p => encodeInfoLine p.1 p.2))).map decodeEntry)).map
      Prod.fst).Nodup := ((hm2perm.map Prod.fst).nodup_iff).mpr hnd
  have h := parseLines_encode ((sortStrings (m.map (fun p => encodeInfoLine p.1 p.2))).map
    decodeEntry) [] hwf2 (by simpa using hnd2)
  rw [hlines_eq] at h
  simpa using h

/-- Claim C1: parsing the result of writing a well-formed volume-type map
returns a map with exactly the original entries (same lookups for every
node). -/
theorem parse_write_roundtrip (cmd : List (String × String))
    (m : List (String × volumeTypeInfo)) (hwf : wellFormedMap m) :
    ∃ m2, getVolumeTypeMapping (writeVolumeTypeMapping cmd m) = .ok m2 ∧
      ∀ node, lookupNode m2 node = lookupNode m node := by
  unfold writeVolumeTypeMapping getVolumeTypeMapping
  rw [lookupKey_setKey]
  by_cases hm : m = []
  · subst hm
    exact ⟨[], rfl, fun node => rfl⟩
  · obtain ⟨hparse, hperm⟩ := parse_of_sorted_encode m hwf
    have hnl : ∀ s ∈ sortStrings (m.map (fun p => encodeInfoLine p.1 p.2)), '\n' ∉ s.data := by
      intro s hs hmem
      rcases List.mem_map.mp ((sortStrings_perm _).mem_iff.mp hs) with ⟨p, hp, rfl⟩
      have := encode_noSpace (hwf.2 p hp).1 (hwf.2 p hp).2 '\n' hmem
      simp [goIsSpace] at this
    have hlne : sortStrings (m.map (fun p => encodeInfoLine p.1 p.2)) ≠ [] := by
      intro h0
      have hlen := (sortStrings_perm (m.map (fun p => encodeInfoLine p.1 p.2))).length_eq
      rw [h0] at hlen
      simp only [List.length_nil, List.length_map] at hlen
      exact hm (List.length_eq_zero.mp hlen.symm)
    refine ⟨(sortStrings (m.map (fun p => encodeInfoLine p.1 p.2))).map decodeEntry, ?_,
      fun node => lookupNode_perm hperm hwf.1 node⟩
    show parseLines []
        (goSplit (goJoin (sortStrings (m.map (fun p => encodeInfoLine p.1 p.2))) '\n') '\n')
      = _
    rw [goSplit_goJoin hlne hnl, hparse]

/-- The node name carried by a line, as the parser extracts it. -/
def nodeField (l : String) : String :=
  goTrimSpace ((goSplit (goTrimSpace l) ',').headD "")

/-- The key part of a comma-separated field, as the parser extracts it. -/
def itemKey (item : String) : String :=
  goTrimSpace ((goSplitN2 item '=').headD "")

theorem parseLines_append (tm : List (String × volumeTypeInfo)) (A B : List String) :
    parseLines tm (A ++ B) =
      match parseLines tm A with
      | .ok tm2 => parseLines tm2 B
      | .err m => .err m
      | .panic => .panic := by
  induction A generalizing tm with
  | nil => simp [parseLines]
  | cons l rest ih =>
    rw [List.cons_append, parseLines_cons, parseLines_cons]
    cases parseLine tm l with
    | ok tm2 => exact ih tm2
    | err m => rfl
    | panic => rfl

theorem parseItem_unknownKey_notOk {line item : String}
    (hk : itemKey item ≠ "type" ∧ itemKey item ≠ "size" ∧ itemKey item ≠ "disk") :
    ∀ info info2, parseItem line info item ≠ .ok info2 := by
  intro info info2
  simp only [parseItem]
  unfold itemKey at hk
  rw [show ((goTrimSpace ((goSplitN2 item '=').headD "")) == "type") = false from
      beq_eq_false_iff_ne.mpr hk.1,
    show ((goTrimSpace ((goSplitN2 item '=').headD "")) == "size") = false from
      beq_eq_false_iff_ne.mpr hk.2.1,
    show ((goTrimSpace ((goSplitN2 item '=').headD "")) == "disk") = false from
      beq_eq_false_iff_ne.mpr hk.2.2]
  simp

theorem parseItem_badSize_notOk {line item v : String}
    (hk : itemKey item = "size") (hv : (goSplitN2 item '=').get? 1 = some v)
    (hq : parseQuantity (goTrimSpace v) = none) :
    ∀ info info2, parseItem line info item ≠ .ok info2 := by
  intro info info2
  simp only [parseItem]
  unfold itemKey at hk
  by_cases ht : ((goTrimSpace ((goSplitN2 item '=').headD "")) == "type") = true
  · exfalso
    have h1 : goTrimSpace ((goSplitN2 item '=').headD "") = "type" := by simpa using ht
    rw [hk] at h1
    exact absurd h1 (by decide)
  · rw [if_neg ht, if_pos (show ((goTrimSpace ((goSplitN2 item '=').headD "")) == "size") = true
      from by rw [hk]; decide), hv]
    show (match parseQuantity (goTrimSpace v) with
      | some q => PResult.ok { info with Size := q }
      | none => PResult.err ("bad size in volume type config map: " ++ line)) ≠ PResult.ok info2
    rw [hq]
    simp

theorem parseItems_notOk {line : String} {items : List String}
    (h : ∃ item ∈ items, ∀ info info2, parseItem line info item ≠ .ok info2) :
    ∀ info info2, parseItems line info items ≠ .ok info2 := by
  obtain ⟨item, hmem, hbad⟩ := h
  induction items with
  | nil => cases hmem
  | cons a rest ih =>
    intro info info2
    rw [parseItems_cons]
    rcases List.mem_cons.mp hmem with rfl | hmem2
    · cases hpi : parseItem line info item with
      | ok i3 => exact absurd hpi (hbad info i3)
      | err m => simp
      | panic => simp
    · cases hpi : parseItem line info a with
      | ok i3 => exact ih hmem2 i3 info2
      | err m => simp
      | panic => simp

theorem parseLine_shortLine_notOk {l : String} (hb : goTrimSpace l ≠ "")
    (hlen : (goSplit (goTrimSpace l) ',').length < 2) :
    ∀ tm tm2, parseLine tm l ≠ .ok tm2 := by
  intro tm tm2
  unfold parseLine
  rw [if_neg (by simpa using hb), if_pos hlen]
  simp

theorem parseLine_badItem_notOk {l item : String}
    (hmem : item ∈ (goSplit (goTrimSpace l) ',').tail)
    (hbad : ∀ info info2, parseItem (goTrimSpace l) info item ≠ .ok info2) :
    ∀ tm tm2, parseLine tm l ≠ .ok tm2 := by
  intro tm tm2
  have hb : (goTrimSpace l == "") = false := by
    refine beq_eq_false_iff_ne.mpr fun he => ?_
    rw [he] at hmem
    rw [show (goSplit "" ',').tail = [] from by decide] at hmem
    exact absurd hmem (List.not_mem_nil item)
  simp only [parseLine]
  rw [hb]
  simp only [Bool.false_eq_true, if_false]
  by_cases hlen : ((goSplit (goTrimSpace l) ',').length < 2)
  · rw [if_pos hlen]; simp
  · rw [if_neg hlen]
    by_cases hdup : (lookupNode tm (goTrimSpace ((goSplit (goTrimSpace l) ',').headD ""))).isSome
      = true
    · rw [if_pos hdup]; simp
    · rw [if_neg hdup]
      cases hpi : parseItems (goTrimSpace l) volumeTypeInfo.zero
          (goSplit (goTrimSpace l) ',').tail with
      | ok info => exact absurd hpi (parseItems_notOk ⟨item, hmem, hbad⟩ volumeTypeInfo.zero info)
      | err m => simp
      | panic => simp

theorem parseLines_badLine_notOk {L : List String} {l : String} (hmem : l ∈ L)
    (hbad : ∀ tm tm2, parseLine tm l ≠ .ok tm2) :
    ∀ tm m, parseLines tm L ≠ .ok m := by
  intro tm m
  obtain ⟨A, B, rfl⟩ := List.append_of_mem hmem
  rw [parseLines_append]
  cases parseLines tm A with
  | ok tm2 =>
    show parseLines tm2 (l :: B) ≠ PResult.ok m
    rw [parseLines_cons]
    cases hpl : parseLine tm2 l with
    | ok tm3 => exact absurd hpl (hbad tm2 tm3)
    | err msg => simp
    | panic => simp
  | err msg => simp
  | panic => simp

theorem lookupNode_append_some (tm : List (String × volumeTypeInfo))
    (p : String × volumeTypeInfo) : (lookupNode (tm ++ [p]) p.1).isSome = true := by
  induction tm with
  | nil => simp [lookupNode, List.find?]
  | cons q rest ih =>
    rw [List.cons_append, lookupNode_cons]
    by_cases hq : (q.1 == p.1) = true <;> simp [hq, ih]

theorem lookupNode_append_mono {tm : List (String × volumeTypeInfo)}
    (p : String × volumeTypeInfo) (k : String) (h : (lookupNode tm k).isSome = true) :
    (lookupNode (tm ++ [p]) k).isSome = true := by
  induction tm with
  | nil => simp [lookupNode, List.find?] at h
  | cons q rest ih =>
    rw [List.cons_append, lookupNode_cons]
    rw [lookupNode_cons] at h
    by_cases hq : (q.1 == k) = true
    · simp [hq]
    · simp only [hq, Bool.false_eq_true, if_false] at h ⊢
      exact ih h

theorem parseLine_ok_inv {tm tm2 : List (String × volumeTypeInfo)} {l : String}
    (h : parseLine tm l = .ok tm2) :
    (goTrimSpace l = "" ∧ tm2 = tm) ∨
      (goTrimSpace l ≠ "" ∧ lookupNode tm (nodeField l) = none ∧
        ∃ info, tm2 = tm ++ [(nodeField l, info)]) := by
  simp only [parseLine] at h
  by_cases hb : (goTrimSpace l == "") = true
  · rw [if_pos hb] at h
    refine Or.inl ⟨by simpa using hb, ?_⟩
    injection h with h2
    exact h2.symm
  · rw [if_neg hb] at h
    by_cases hlen : ((goSplit (goTrimSpace l) ',').length < 2)
    · rw [if_pos hlen] at h
      cases h
    · rw [if_neg hlen] at h
      by_cases hdup :
          (lookupNode tm (goTrimSpace ((goSplit (goTrimSpace l) ',').headD ""))).isSome = true
      · rw [if_pos hdup] at h
        cases h
      · rw [if_neg hdup] at h
        cases hpi : parseItems (goTrimSpace l) volumeTypeInfo.zero
            (goSplit (goTrimSpace l) ',').tail with
        | ok info =>
          rw [hpi] at h
          injection h with h2
          exact Or.inr ⟨by simpa using hb,
            Option.not_isSome_iff_eq_none.mp hdup, info, h2.symm⟩
        | err msg =>
          rw [hpi] at h
          cases h
        | panic =>
          rw [hpi] at h
          cases h

theorem parseLine_preserves_some {tm tm2 : List (String × volumeTypeInfo)} {l : String}
    (h : parseLine tm l = .ok tm2) (k : String) (hk : (lookupNode tm k).isSome = true) :
    (lookupNode tm2 k).isSome = true := by
  rcases parseLine_ok_inv h with ⟨_, rfl⟩ | ⟨_, _, info, rfl⟩
  · exact hk
  · exact lookupNode_append_mono _ k hk

theorem parseLine_adds_node {tm tm2 : List (String × volumeTypeInfo)} {l : String}
    (h : parseLine tm l = .ok tm2) (hb : goTrimSpace l ≠ "") :
    (lookupNode tm2 (nodeField l)).isSome = true := by
  rcases parseLine_ok_inv h with ⟨hb2, _⟩ | ⟨_, _, info, rfl⟩
  · exact absurd hb2 hb
  · exact lookupNode_append_some tm (nodeField l, info)

theorem parseLines_ok_append_inv {tm m : List (String × volumeTypeInfo)} {A B : List String}
    (h : parseLines tm (A ++ B) = .ok m) :
    ∃ tm1, parseLines tm A = .ok tm1 ∧ parseLines tm1 B = .ok m := by
  rw [parseLines_append] at h
  cases hA : parseLines tm A with
  | ok tm1 =>
    rw [hA] at h
    exact ⟨tm1, rfl, h⟩
  | err msg =>
    rw [hA] at h
    cases h
  | panic =>
    rw [hA] at h
    cases h

theorem parseLines_ok_cons_inv {tm m : List (String × volumeTypeInfo)} {l : String}
    {rest : List String} (h : parseLines tm (l :: rest) = .ok m) :
    ∃ tm2, parseLine tm l = .ok tm2 ∧ parseLines tm2 rest = .ok m := by
  rw [parseLines_cons] at h
  cases hl : parseLine tm l with
  | ok tm2 =>
    rw [hl] at h
    exact ⟨tm2, rfl, h⟩
  | err msg =>
    rw [hl] at h
    cases h
  | panic =>
    rw [hl] at h
    cases h

theorem parseLines_preserve_some {L : List String} :
    ∀ {tm tm2 : List (String × volumeTypeInfo)}, parseLines tm L = .ok tm2 →
      ∀ k, (lookupNode tm k).isSome = true → (lookupNode tm2 k).isSome = true := by
  induction L with
  | nil =>
    intro tm tm2 h k hk
    injection h with h2
    exact h2 ▸ hk
  | cons l rest ih =>
    intro tm tm2 h k hk
    obtain ⟨tm3, hl, hrest⟩ := parseLines_ok_cons_inv h
    exact ih hrest k (parseLine_preserves_some hl k hk)

theorem parseLines_duplicate_notOk {A B C : List String} {l1 l2 : String}
    (hb1 : goTrimSpace l1 ≠ "") (hb2 : goTrimSpace l2 ≠ "")
    (heq : nodeField l1 = nodeField l2) :
    ∀ m, parseLines [] (A ++ l1 :: (B ++ l2 :: C)) ≠ .ok m := by
  intro m h
  obtain ⟨tm1, hA, h1⟩ := parseLines_ok_append_inv h
  obtain ⟨tm2, hl1, h2⟩ := parseLines_ok_cons_inv h1
  obtain ⟨tm3, hB, h3⟩ := parseLines_ok_append_inv h2
  obtain ⟨tm4, hl2, _⟩ := parseLines_ok_cons_inv h3
  have hs1 := parseLine_adds_node hl1 hb1
  have hs2 := parseLines_preserve_some hB _ hs1
  rw [heq] at hs2
  rcases parseLine_ok_inv hl2 with ⟨hbb, _⟩ | ⟨_, hnone, _⟩
  · exact hb2 hbb
  · rw [hnone] at hs2
    exact absurd hs2 (by simp)

theorem parseLine_blank {tm : List (String × volumeTypeInfo)} {l : String}
    (hb : goTrimSpace l = "") : parseLine tm l = .ok tm := by
  simp only [parseLine]
  rw [if_pos (show (goTrimSpace l == "") = true from by rw [hb]; rfl)]

/-!
The claim theorems.
-/

/-- Claim C1 witness: the round-trip law applied to the concrete
three-entry map of the spec's testable properties. -/
theorem parse_write_roundtrip_witness :
    wellFormedMap [("a", ⟨"foo", ⟨""⟩, ""⟩), ("b", ⟨"bar", ⟨"10Mi"⟩, ""⟩),
      ("c", ⟨"pd", ⟨"10Gi"⟩, "foobar"⟩)] ∧
    ∃ m2, getVolumeTypeMapping (writeVolumeTypeMapping []
        [("a", ⟨"foo", ⟨""⟩, ""⟩), ("b", ⟨"bar", ⟨"10Mi"⟩, ""⟩),
          ("c", ⟨"pd", ⟨"10Gi"⟩, "foobar"⟩)]) = .ok m2 ∧
      ∀ node, lookupNode m2 node =
        lookupNode [("a", ⟨"foo", ⟨""⟩, ""⟩), ("b", ⟨"bar", ⟨"10Mi"⟩, ""⟩),
          ("c", ⟨"pd", ⟨"10Gi"⟩, "foobar"⟩)] node :=
  ⟨by decide, parse_write_roundtrip [] _ (by decide)⟩

/-- Claim C2: writeVolumeTypeMapping stores, under the volume-types key,
the per-node lines sorted, joined by a newline with no trailing newline;
and on the spec's concrete example the stored value is exactly the
canonical string (which also exhibits the fixed type, size, disk key
order with absent keys omitted). -/
theorem writeVolumeTypeMapping_canonical :
    (∀ (cmd : List (String × String)) (m : List (String × volumeTypeInfo)),
      ∃ lines, lookupKey (writeVolumeTypeMapping cmd m) volumeTypeInfoKey
          = some (goJoin lines '\n') ∧
        lines.Pairwise (fun a b : String => strLeb a b = true) ∧
        lines.Perm (m.map (fun p => encodeInfoLine p.1 p.2))) ∧
    lookupKey (writeVolumeTypeMapping [] [("a", ⟨"foo", ⟨""⟩, ""⟩),
        ("b", ⟨"bar", ⟨"10Mi"⟩, ""⟩), ("c", ⟨"pd", ⟨"10Gi"⟩, "foobar"⟩)]) volumeTypeInfoKey
      = some "a,type=foo\nb,type=bar,size=10Mi\nc,type=pd,size=10Gi,disk=foobar" := by
  constructor
  · intro cmd m
    refine ⟨sortStrings (m.map fun p => encodeInfoLine p.1 p.2), ?_, ?_, sortStrings_perm _⟩
    · unfold writeVolumeTypeMapping
      exact lookupKey_setKey cmd volumeTypeInfoKey _
    · exact sortStrings_sorted _
  · decide

/-- Claim C3 counterexample: on the value of two lines, the first being a
type field with no equals sign and the second a non-blank line with fewer
than two comma-separated fields, the parser panics rather than returning
an error, so the claim as stated (an error is returned whenever some line
has fewer than two fields) is false at this input. -/
theorem getVolumeTypeMapping_error_cases_cex :
    ("b" ∈ goSplit "a,type\nb" '\n') ∧ goTrimSpace "b" ≠ "" ∧
    (goSplit (goTrimSpace "b") ',').length < 2 ∧
    getVolumeTypeMapping [(volumeTypeInfoKey, "a,type\nb")] = .panic ∧
    (getVolumeTypeMapping [(volumeTypeInfoKey, "a,type\nb")]).isErr = false := by
  decide

/-- Claim C3 (amended): a missing volume-types key is an error of the
not-found kind; a non-blank line with fewer than two fields, an unknown
key, an unparsable size value, and a duplicated node name each prevent the
parser from ever returning a map (it returns an error, or panics when a
type, size or disk field without an equals sign is hit first); blank lines
are skipped and whitespace around the comma and equals tokens is
tolerated. -/
theorem getVolumeTypeMapping_error_cases :
    (∀ data, lookupKey data volumeTypeInfoKey = none →
      getVolumeTypeMapping data
        = .err (volumeTypeInfoKey ++ " not found in volume type config map")) ∧
    (∀ data nodes l, lookupKey data volumeTypeInfoKey = some nodes →
      l ∈ goSplit nodes '\n' → goTrimSpace l ≠ "" →
      (goSplit (goTrimSpace l) ',').length < 2 →
      ∀ m, getVolumeTypeMapping data ≠ .ok m) ∧
    (∀ data nodes l item, lookupKey data volumeTypeInfoKey = some nodes →
      l ∈ goSplit nodes '\n' → item ∈ (goSplit (goTrimSpace l) ',').tail →
      itemKey item ≠ "type" → itemKey item ≠ "size" → itemKey item ≠ "disk" →
      ∀ m, getVolumeTypeMapping data ≠ .ok m) ∧
    (∀ data nodes l item v, lookupKey data volumeTypeInfoKey = some nodes →
      l ∈ goSplit nodes '\n' → item ∈ (goSplit (goTrimSpace l) ',').tail →
      itemKey item = "size" → (goSplitN2 item '=').get? 1 = some v →
      parseQuantity (goTrimSpace v) = none →
      ∀ m, getVolumeTypeMapping data ≠ .ok m) ∧
    (∀ data nodes A B C l1 l2, lookupKey data volumeTypeInfoKey = some nodes →
      goSplit nodes '\n' = A ++ l1 :: (B ++ l2 :: C) →
      goTrimSpace l1 ≠ "" → goTrimSpace l2 ≠ "" → nodeField l1 = nodeField l2 →
      ∀ m, getVolumeTypeMapping data ≠ .ok m) ∧
    (∀ tm b L, goTrimSpace b = "" → parseLines tm (b :: L) = parseLines tm L) ∧
    getVolumeTypeMapping [(volumeTypeInfoKey, " \nnode , type = foo\n\n")]
      = .ok [("node", ⟨"foo", ⟨""⟩, ""⟩)] := by
  refine ⟨?_, ?_, ?_, ?_, ?_, ?_, by decide⟩
  · intro data hlk
    unfold getVolumeTypeMapping
    rw [hlk]
  · intro data nodes l hlk hmem hb hlen m
    unfold getVolumeTypeMapping
    rw [hlk]
    exact parseLines_badLine_notOk hmem (parseLine_shortLine_notOk hb hlen) [] m
  · intro data nodes l item hlk hmem hitem h1 h2 h3 m
    unfold getVolumeTypeMapping
    rw [hlk]
    exact parseLines_badLine_notOk hmem
      (parseLine_badItem_notOk hitem (parseItem_unknownKey_notOk ⟨h1, h2, h3⟩)) [] m
  · intro data nodes l item v hlk hmem hitem hk hv hq m
    unfold getVolumeTypeMapping
    rw [hlk]
    exact parseLines_badLine_notOk hmem
      (parseLine_badItem_notOk hitem (parseItem_badSize_notOk hk hv hq)) [] m
  · intro data nodes A B C l1 l2 hlk hsplit hb1 hb2 heq m
    unfold getVolumeTypeMapping
    rw [hlk]
    show parseLines [] (goSplit nodes '\n') ≠ .ok m
    rw [hsplit]
    exact parseLines_duplicate_notOk hb1 hb2 heq m
  · intro tm b L hb
    rw [parseLines_cons, parseLine_blank hb]

/-- Claim C3 witness: each error case of the amended claim exercised at a
concrete input (missing key; short line; unknown key; bad size; duplicate
node; a skipped blank line). -/
theorem getVolumeTypeMapping_error_cases_witness :
    getVolumeTypeMapping [("foo", "node,type=bar")]
        = .err (volumeTypeInfoKey ++ " not found in volume type config map") ∧
    getVolumeTypeMapping [(volumeTypeInfoKey, "solo")] ≠ .ok [] ∧
    getVolumeTypeMapping [(volumeTypeInfoKey, "node, type = foo,")] ≠ .ok [] ∧
    getVolumeTypeMapping [(volumeTypeInfoKey, "node, type=foo, unknown=yes")] ≠ .ok [] ∧
    getVolumeTypeMapping [(volumeTypeInfoKey, "node, type=foo, size=ten")] ≠ .ok [] ∧
    getVolumeTypeMapping [(volumeTypeInfoKey, "n,type=a\nn,type=b")] ≠ .ok [] ∧
    parseLines [] (" " :: ["node,type=foo"]) = parseLines [] ["node,type=foo"] := by
  refine ⟨?_, ?_, ?_, ?_, ?_, ?_, ?_⟩
  · exact getVolumeTypeMapping_error_cases.1 [("foo", "node,type=bar")] (by decide)
  · exact getVolumeTypeMapping_error_cases.2.1 [(volumeTypeInfoKey, "solo")]
      "solo" "solo" (by decide) (by decide) (by decide) (by decide) []
  · exact getVolumeTypeMapping_error_cases.2.2.1
      [(volumeTypeInfoKey, "node, type = foo,")] "node, type = foo,"
      "node, type = foo," "" (by decide) (by decide) (by decide)
      (by decide) (by decide) (by decide) []
  · exact getVolumeTypeMapping_error_cases.2.2.1
      [(volumeTypeInfoKey, "node, type=foo, unknown=yes")] "node, type=foo, unknown=yes"
      "node, type=foo, unknown=yes" " unknown=yes" (by decide) (by decide) (by decide)
      (by decide) (by decide) (by decide) []
  · exact getVolumeTypeMapping_error_cases.2.2.2.1
      [(volumeTypeInfoKey, "node, type=foo, size=ten")] "node, type=foo, size=ten"
      "node, type=foo, size=ten" " size=ten" "ten" (by decide) (by decide) (by decide)
      (by decide) (by decide) (by decide) []
  · exact getVolumeTypeMapping_error_cases.2.2.2.2.1
      [(volumeTypeInfoKey, "n,type=a\nn,type=b")] "n,type=a\nn,type=b" [] [] []
      "n,type=a" "n,type=b" (by decide) (by decide) (by decide) (by decide) (by decide) []
  · exact getVolumeTypeMapping_error_cases.2.2.2.2.2.1 [] " " ["node,type=foo"] (by decide)

/-- Claim C4: the parser is not total.  On a line whose second field is
exactly the word type with no equals sign, SplitN yields a one-element
list and the code indexes its second element: the run panics instead of
returning a parse error, and the panic propagates into the agent's
createCacheVolume, which parses the same shared data. -/
theorem getVolumeTypeMapping_panics_on_keyOnlyField :
    goSplitN2 "type" '=' = ["type"] ∧
    getVolumeTypeMapping [(volumeTypeInfoKey, "node,type")] = .panic ∧
    createCacheVolume
      { pollConfigMap := .ok [(volumeTypeInfoKey, "node,type")],
        newTmpfsVolume := fun _ _ => .ok tmpfsPath,
        newLocalSSDVolume := fun _ _ => .ok lssdPath,
        pd := { stat := fun _ => .found, fromDevice := fun _ mp => .ok mp } }
      "node" "ns" "volume-info" = .panics := by
  decide

theorem takeWhile_append_stop {p : Char → Bool} {xs : List Char} {y : Char} {ys : List Char}
    (hxs : ∀ x ∈ xs, p x = true) (hy : p y = false) :
    (xs ++ y :: ys).takeWhile p = xs ∧ (xs ++ y :: ys).dropWhile p = y :: ys := by
  induction xs with
  | nil => simp [List.takeWhile, List.dropWhile, hy]
  | cons a rest ih =>
    have ha : p a = true := hxs a (List.mem_cons_self a rest)
    obtain ⟨h1, h2⟩ := ih (fun x hx => hxs x (List.mem_cons_of_mem a hx))
    constructor
    · rw [List.cons_append, List.takeWhile_cons, ha, h1]
      simp
    · rw [List.cons_append, List.dropWhile_cons, ha]
      simpa using h2

/-- The regular-expression semantics of the inactive pattern: a line
yields the group name exactly when it decomposes as a non-empty space-free
name, the literal inactive marker, and at least one ASCII alphanumeric
character. -/
theorem mdstatInactiveMatch_iff (line : String) (name : String) :
    mdstatInactiveMatch line = some name ↔
      (name ≠ "" ∧ (∀ c ∈ name.data, (c ≠ ' ')) ∧
        ∃ c rest2, isAlnumAscii c = true ∧
          line.data = name.data ++ " : inactive ".data ++ c :: rest2) := by
  constructor
  · intro h
    unfold mdstatInactiveMatch at h
    by_cases hg : (line.data.takeWhile (fun c => c ≠ ' ') == []) = true
    · rw [if_pos hg] at h
      cases h
    · rw [if_neg hg] at h
      by_cases hpre : (" : inactive ".data.isPrefixOf
          (line.data.dropWhile (fun c => c ≠ ' '))) = true
      · rw [if_pos hpre] at h
        obtain ⟨t, ht⟩ := List.isPrefixOf_iff_prefix.mp hpre
        cases hdrop : (line.data.dropWhile (fun c => c ≠ ' ')).drop " : inactive ".data.length with
        | nil =>
          rw [hdrop] at h
          cases h
        | cons c rest2 =>
          rw [hdrop] at h
          have h' : (if isAlnumAscii c = true
              then some (String.mk (line.data.takeWhile (fun c => c ≠ ' ')))
              else none) = some name := h
          by_cases halnum : isAlnumAscii c = true
          · rw [if_pos halnum] at h'
            injection h' with h2
            have hdname : name.data = line.data.takeWhile (fun c => c ≠ ' ') := by
              rw [← h2]
            refine ⟨?_, ?_, c, rest2, halnum, ?_⟩
            · intro he
              apply (by simpa using hg : ¬line.data.takeWhile (fun c => c ≠ ' ') = [])
              rw [← hdname, he]
            · intro x hx
              rw [hdname] at hx
              have := List.mem_takeWhile_imp hx
              simpa using this
            · have hsplit := (List.takeWhile_append_dropWhile
                (p := fun c => c ≠ ' ') (l := line.data)).symm
              have ht2 : line.data.dropWhile (fun c => c ≠ ' ')
                  = " : inactive ".data ++ t := ht.symm
              have ht3 : t = c :: rest2 := by
                rw [ht2, List.drop_left] at hdrop
                exact hdrop
              calc line.data
                  = line.data.takeWhile (fun c => c ≠ ' ')
                      ++ line.data.dropWhile (fun c => c ≠ ' ') := hsplit
                _ = line.data.takeWhile (fun c => c ≠ ' ')
                      ++ (" : inactive ".data ++ (c :: rest2)) := by rw [ht2, ht3]
                _ = name.data ++ (" : inactive ".data ++ (c :: rest2)) := by rw [hdname]
                _ = name.data ++ " : inactive ".data ++ c :: rest2 :=
                    (List.append_assoc _ _ _).symm
          · rw [if_neg halnum] at h'
            cases h' 
      · rw [if_neg hpre] at h
        cases h
  · rintro ⟨hne, hns, c, rest2, halnum, hdata⟩
    simp only [mdstatInactiveMatch]
    have hstop := @takeWhile_append_stop (fun c => c ≠ ' ') name.data ' '
      (": inactive ".data ++ c :: rest2)
      (fun x hx => by simpa using hns x hx) (by simp)
    have hpat : (" : inactive " : String).data ++ (c :: rest2)
        = ' ' :: (": inactive ".data ++ (c :: rest2)) := by
      rw [show (" : inactive " : String).data = ' ' :: (": inactive " : String).data
        from by decide, List.cons_append]
    have hdata2 : line.data = name.data ++ ' ' :: (": inactive ".data ++ c :: rest2) := by
      rw [hdata, List.append_assoc, hpat]
    rw [hdata2, hstop.1, hstop.2]
    rw [if_neg (by
      simp only [beq_iff_eq]
      intro he
      exact hne (by
        have : name = String.mk [] := String.ext he
        simpa using this))]
    rw [if_pos (by
      apply List.isPrefixOf_iff_prefix.mpr
      exact ⟨c :: rest2, rfl⟩)]
    rw [show (' ' :: (": inactive ".data ++ c :: rest2)).drop " : inactive ".data.length
        = c :: rest2 from by
      rw [show ' ' :: (": inactive ".data ++ c :: rest2)
          = " : inactive ".data ++ c :: rest2 from rfl]
      exact List.drop_left _ _]
    show (if isAlnumAscii c = true then some (String.mk name.data) else none) = some name
    rw [if_pos halnum]

/-- Claim C8: the inactive-array detector is a pure function of the kernel
status text: it returns exactly the names of the lines matching the
inactive pattern, prefixed with /dev/, and nothing for active arrays; on
the kernel-format examples it yields the inactive arrays only. -/
theorem getInactiveDevices_spec :
    (∀ text dev, dev ∈ getInactiveDevices text ↔
      ∃ line ∈ goSplit text '\n', ∃ name, mdstatInactiveMatch line = some name ∧
        dev = "/dev/" ++ name) ∧
    getInactiveDevices "Personalities : [raid1]\nmd127 : inactive sdb[3](S)\n      10484736 blocks super 1.2\n\nunused devices: <none>\n" = ["/dev/md127"] ∧
    getInactiveDevices "Personalities : [raid1]\nunused devices: <none>\n" = [] ∧
    getInactiveDevices "Personalities : [raid1]\nmd127 : active raid1 sdd[1] ram0[0]\n      130048 blocks super 1.2 [2/2] [UU]\n\nmd126 : inactive ram0[3](S)\n      10484736 blocks super 1.2\n" = ["/dev/md126"] := by
  refine ⟨?_, by decide, by decide, by decide⟩
  intro text dev
  unfold getInactiveDevices
  rw [List.mem_filterMap]
  constructor
  · rintro ⟨line, hline, hmap⟩
    rcases hmatch : mdstatInactiveMatch line with _ | name
    · rw [hmatch] at hmap
      cases hmap
    · rw [hmatch] at hmap
      injection hmap with h2
      exact ⟨line, hline, name, hmatch, h2.symm⟩
  · rintro ⟨line, hline, name, hmatch, rfl⟩
    exact ⟨line, hline, by rw [hmatch]; rfl⟩

theorem validateDevice_trace (env : RaidEnv) (device : String) :
    (validateDevice env device).2 = [.statDevice device] := by
  unfold validateDevice
  cases env.stat device with
  | found isDevice => rfl
  | errNotExist => rfl
  | errOther m => rfl

/-- Claim C7 counterexample: an environment in which every mdadm command
succeeds, so the target reports as a live array in both modes, but no
member path can be statted.  Striped Init short-circuits; mirrored Init
nonetheless fails on member validation, refuting the claim for the
mirrored mode. -/
theorem raid_Init_short_circuit_cex :
    (stripedArray.Init
      { mdadm := fun _ => ("", none), stat := fun _ => .errOther "boom",
        mdstatContent := .ok "" }
      ⟨"/dev/md/lssd", ["/dev/sdb"]⟩ = (none, [.mdadm ["--detail", "/dev/md/lssd"]])) ∧
    (mirrorArray.Init
      { mdadm := fun _ => ("", none), stat := fun _ => .errOther "boom",
        mdstatContent := .ok "" }
      ⟨"/dev/md/x", "/dev/sdb", []⟩
      = (some "Could not stat device /dev/sdb raid: boom", [.statDevice "/dev/sdb"])) := by
  constructor <;> rfl

/-- Claim C7 (amended): only the striped Init short-circuits on a live
target: when the detail probe of the target succeeds it returns success
having performed only that probe.  The mirrored Init never probes the
target; it begins with member validation whatever the state of the
target, and fails at once when the primary does not validate. -/
theorem raid_Init_short_circuit (env : RaidEnv) :
    (∀ s : stripedArray, (env.mdadm ["--detail", s.target]).2 = none →
      stripedArray.Init env s = (none, [.mdadm ["--detail", s.target]])) ∧
    (∀ (m : mirrorArray) (msg : String), (validateDevice env m.primary).1 = some msg →
      mirrorArray.Init env m = (some msg, [.statDevice m.primary])) := by
  constructor
  · intro s hdetail
    unfold stripedArray.Init isRaidDevice
    rw [hdetail]
  · intro m msg hval
    have hpair : validateDevice env m.primary = (some msg, [.statDevice m.primary]) := by
      rcases hp : validateDevice env m.primary with ⟨e, t⟩
      have h1 : e = some msg := by rw [hp] at hval; exact hval
      have h2 : t = [.statDevice m.primary] := by
        have := validateDevice_trace env m.primary
        rw [hp] at this
        exact this
      rw [h1, h2]
    unfold mirrorArray.Init
    rw [hpair]

/-- Claim C7 witness: both halves of the amended claim at concrete
environments. -/
theorem raid_Init_short_circuit_witness :
    (({ mdadm := fun _ => ("", none), stat := fun _ => .found true,
        mdstatContent := .ok "" } : RaidEnv).mdadm ["--detail", "/dev/md/lssd"]).2 = none ∧
    stripedArray.Init
      { mdadm := fun _ => ("", none), stat := fun _ => .found true, mdstatContent := .ok "" }
      ⟨"/dev/md/lssd", ["/dev/a", "/dev/b"]⟩
      = (none, [.mdadm ["--detail", "/dev/md/lssd"]]) ∧
    mirrorArray.Init
      { mdadm := fun _ => ("", none), stat := fun _ => .errNotExist, mdstatContent := .ok "" }
      ⟨"/dev/md/x", "/dev/sdb", ["/dev/sdc"]⟩
      = (some "Could not stat device /dev/sdb raid", [.statDevice "/dev/sdb"]) :=
  ⟨rfl,
    (raid_Init_short_circuit _).1 ⟨"/dev/md/lssd", ["/dev/a", "/dev/b"]⟩ rfl,
    (raid_Init_short_circuit _).2 ⟨"/dev/md/x", "/dev/sdb", ["/dev/sdc"]⟩
      "Could not stat device /dev/sdb raid" rfl⟩

/-- Claim C10 counterexample: with an empty disk-id, the operation answers
Pending at once without consulting the filesystem, even in a world where
the derived device path exists, so From-device is not run although the
path exists — the claim quantified over every disk-id is false at the
empty one. -/
theorem NewPDVolume_empty_disk_cex :
    NewPDVolume { stat := fun _ => .found, fromDevice := fun _ mp => .ok mp } "" "/local/pd"
      = (.error (.pending "empty disk name"), []) := rfl

/-- Claim C10 (amended): for every non-empty disk-id the canonical device
path is the by-id google path; if stat reports it absent the result is
the distinguished Pending error kind and From-device is not run,
otherwise From-device runs on that path and its result is returned.  An
empty disk-id fails with Pending immediately, with no filesystem access. -/
theorem NewPDVolume_spec (env : PDEnv) (diskName mountPath : String) :
    (diskName ≠ "" → env.stat ("/dev/disk/by-id/google-" ++ diskName) = .errNotExist →
      NewPDVolume env diskName mountPath
        = (.error (.pending ("Waiting for attach, " ++ ("/dev/disk/by-id/google-" ++ diskName)
            ++ " does not yet exist")),
           [.statDevice ("/dev/disk/by-id/google-" ++ diskName)])) ∧
    (diskName ≠ "" → env.stat ("/dev/disk/by-id/google-" ++ diskName) ≠ .errNotExist →
      NewPDVolume env diskName mountPath
        = (env.fromDevice ("/dev/disk/by-id/google-" ++ diskName) mountPath,
           [.statDevice ("/dev/disk/by-id/google-" ++ diskName),
            .fromDevice ("/dev/disk/by-id/google-" ++ diskName) mountPath])) ∧
    (diskName = "" →
      NewPDVolume env diskName mountPath = (.error (.pending "empty disk name"), [])) := by
  refine ⟨?_, ?_, ?_⟩
  · intro hne hstat
    simp only [NewPDVolume]
    rw [if_neg (by simpa using hne), hstat]
  · intro hne hstat
    simp only [NewPDVolume]
    rw [if_neg (by simpa using hne)]
  · intro h
    subst h
    rfl

/-- Claim C10 witness: the Pending branch on a detached disk and the
From-device branch on an attached one. -/
theorem NewPDVolume_spec_witness :
    ("mydisk" : String) ≠ "" ∧
    NewPDVolume { stat := fun _ => .errNotExist, fromDevice := fun _ mp => .ok mp }
      "mydisk" "/local/pd"
      = (.error (.pending ("Waiting for attach, " ++ ("/dev/disk/by-id/google-" ++ "mydisk")
          ++ " does not yet exist")),
         [.statDevice ("/dev/disk/by-id/google-" ++ "mydisk")]) ∧
    NewPDVolume { stat := fun _ => .found, fromDevice := fun _ mp => .ok mp }
      "mydisk" "/local/pd"
      = (.ok "/local/pd",
         [.statDevice ("/dev/disk/by-id/google-" ++ "mydisk"),
          .fromDevice ("/dev/disk/by-id/google-" ++ "mydisk") "/local/pd"]) :=
  ⟨by decide,
    (NewPDVolume_spec _ "mydisk" "/local/pd").1 (by decide) rfl,
    (NewPDVolume_spec _ "mydisk" "/local/pd").2.1 (by decide) (by decide)⟩

/-- A From-device world where every device exists and mounts at the
requested path. -/
def pdEnvAttached : PDEnv := { stat := fun _ => .found, fromDevice := fun _ mp => .ok mp }

/-- An agent world whose config-map poll never succeeds. -/
def agentEnvDeadline : AgentEnv :=
  { pollConfigMap := .error "deadline",
    newTmpfsVolume := fun _ _ => .ok tmpfsPath,
    newLocalSSDVolume := fun _ _ => .ok lssdPath,
    pd := pdEnvAttached }

/-- An agent world whose config map holds a malformed one-field line. -/
def agentEnvBadLine : AgentEnv :=
  { pollConfigMap := .ok [(volumeTypeInfoKey, "solo")],
    newTmpfsVolume := fun _ _ => .ok tmpfsPath,
    newLocalSSDVolume := fun _ _ => .ok lssdPath,
    pd := pdEnvAttached }

/-- Claim C5 counterexample: with the volume already constructed, a
non-empty target that is not yet a mount point, and a failing bind
mount, the handler returns the raw mount error with no status code at
all — not code internal — so the claim's final clause is false. -/
theorem NodePublishVolume_mount_raw_cex :
    NodePublishVolume
      { agent := agentEnvDeadline, isLikelyNotMountPoint := .ok true, mkdirAll := none,
        mount := fun _ => some "mount failed" }
      (some "/local/tmpfs") "n1" "ns" "volume-info" "/target" false
      = (.rawErr "mount failed", some "/local/tmpfs") := rfl

/-- Claim C5 (amended): a missing target path fails with invalid-argument;
a Pending failure of the lazy construction fails with aborted; any other
construction failure, and a failure inspecting or creating the target
path, fails with internal; but a failure of the bind mount itself is
returned as-is, carrying no status code. -/
theorem NodePublishVolume_error_codes :
    (∀ env vol node ns nm ro, NodePublishVolume env vol node ns nm "" ro
      = (.statusErr .invalidArgument "Target path missing in request", vol)) ∧
    (∀ (env : PublishEnv) node ns nm target ro msg, target ≠ "" →
      createCacheVolume env.agent node ns nm = .fail (.pending msg) →
      NodePublishVolume env none node ns nm target ro
        = (.statusErr .aborted ("local volume not ready: " ++ msg), none)) ∧
    (∀ (env : PublishEnv) node ns nm target ro msg, target ≠ "" →
      createCacheVolume env.agent node ns nm = .fail (.other msg) →
      NodePublishVolume env none node ns nm target ro
        = (.statusErr .internal ("local volume creation failed: " ++ msg), none)) ∧
    (∀ (env : PublishEnv) p node ns nm target ro msg, target ≠ "" →
      env.isLikelyNotMountPoint = .errOther msg →
      NodePublishVolume env (some p) node ns nm target ro
        = (.statusErr .internal ("Target mount point exists in bad state: " ++ msg), some p)) ∧
    (∀ (env : PublishEnv) p node ns nm target ro msg, target ≠ "" →
      env.isLikelyNotMountPoint = .errNotExist → env.mkdirAll = some msg →
      NodePublishVolume env (some p) node ns nm target ro
        = (.statusErr .internal ("Target mount point creation failed: " ++ msg), some p)) ∧
    (∀ (env : PublishEnv) p node ns nm target ro msg, target ≠ "" →
      env.isLikelyNotMountPoint = .ok true →
      env.mount (if ro then ["bind", "ro"] else ["bind"]) = some msg →
      NodePublishVolume env (some p) node ns nm target ro = (.rawErr msg, some p)) := by
  refine ⟨?_, ?_, ?_, ?_, ?_, ?_⟩
  · intro env vol node ns nm ro
    simp only [NodePublishVolume]
    rw [if_pos (show (("" : String) == "") = true from rfl)]
  · intro env node ns nm target ro msg htarget hc
    simp only [NodePublishVolume]
    rw [if_neg (by simpa using htarget), hc]
  · intro env node ns nm target ro msg htarget hc
    simp only [NodePublishVolume]
    rw [if_neg (by simpa using htarget), hc]
  · intro env p node ns nm target ro msg htarget hstat
    simp only [NodePublishVolume]
    rw [if_neg (by simpa using htarget), hstat]
  · intro env p node ns nm target ro msg htarget hstat hmk
    simp only [NodePublishVolume]
    rw [if_neg (by simpa using htarget), hstat, hmk]
  · intro env p node ns nm target ro msg htarget hstat hmount
    simp only [NodePublishVolume]
    rw [if_neg (by simpa using htarget), hstat, hmount]
    rfl

/-- Claim C5 witness: the three status codes and the raw mount error, at
concrete environments. -/
theorem NodePublishVolume_error_codes_witness :
    NodePublishVolume
      { agent := agentEnvDeadline, isLikelyNotMountPoint := .ok true, mkdirAll := none,
        mount := fun _ => none }
      none "n1" "ns" "volume-info" "" false
      = (.statusErr .invalidArgument "Target path missing in request", none) ∧
    NodePublishVolume
      { agent := agentEnvDeadline, isLikelyNotMountPoint := .ok true, mkdirAll := none,
        mount := fun _ => none }
      none "n1" "ns" "volume-info" "/target" false
      = (.statusErr .aborted
          ("local volume not ready: " ++ ("no node cache volume type found: " ++ "deadline")),
        none) ∧
    NodePublishVolume
      { agent := agentEnvBadLine, isLikelyNotMountPoint := .ok true, mkdirAll := none,
        mount := fun _ => none }
      none "n1" "ns" "volume-info" "/target" false
      = (.statusErr .internal
          ("local volume creation failed: " ++ "Bad line in volume type config map: solo"),
        none) ∧
    NodePublishVolume
      { agent := agentEnvDeadline, isLikelyNotMountPoint := .errOther "stat denied",
        mkdirAll := none, mount := fun _ => none }
      (some "/local/tmpfs") "n1" "ns" "volume-info" "/target" false
      = (.statusErr .internal ("Target mount point exists in bad state: " ++ "stat denied"),
        some "/local/tmpfs") ∧
    NodePublishVolume
      { agent := agentEnvDeadline, isLikelyNotMountPoint := .ok true, mkdirAll := none,
        mount := fun _ => some "mount failed" }
      (some "/local/tmpfs") "n1" "ns" "volume-info" "/target" false
      = (.rawErr "mount failed", some "/local/tmpfs") := by
  refine ⟨?_, ?_, ?_, ?_, ?_⟩
  · exact NodePublishVolume_error_codes.1 _ none "n1" "ns" "volume-info" false
  · exact NodePublishVolume_error_codes.2.1 _ "n1" "ns" "volume-info" "/target" false
      ("no node cache volume type found: " ++ "deadline") (by decide) rfl
  · exact NodePublishVolume_error_codes.2.2.1 _ "n1" "ns" "volume-info" "/target" false
      "Bad line in volume type config map: solo" (by decide) (by decide)
  · exact NodePublishVolume_error_codes.2.2.2.1 _ "/local/tmpfs" "n1" "ns" "volume-info"
      "/target" false "stat denied" (by decide) rfl
  · exact NodePublishVolume_error_codes.2.2.2.2.2 _ "/local/tmpfs" "n1" "ns" "volume-info"
      "/target" false "mount failed" (by decide) rfl rfl

/-- Claim C6: the lazy-init check is not serialized — the Driver struct
has no lock, so in the interleaving model of two concurrent first
publishes there is a reachable state in which createCacheVolume has run
twice and the second assignment has replaced the volume pointer. -/
theorem concurrent_publish_double_construction (path1 path2 : String) :
    ∃ s, RaceReachable path1 path2 raceInit s ∧ s.constructCount = 2 ∧ s.vol = some path2 := by
  refine ⟨⟨some path2, 2, .done, .done⟩, ?_, rfl, rfl⟩
  have h1 : RaceStep path1 path2 raceInit ⟨none, 0, .construct, .start⟩ :=
    RaceStep.check1Nil raceInit rfl rfl
  have h2 : RaceStep path1 path2 ⟨none, 0, .construct, .start⟩
      ⟨none, 0, .construct, .construct⟩ :=
    RaceStep.check2Nil _ rfl rfl
  have h3 : RaceStep path1 path2 ⟨none, 0, .construct, .construct⟩
      ⟨some path1, 1, .done, .construct⟩ :=
    RaceStep.run1 _ rfl
  have h4 : RaceStep path1 path2 ⟨some path1, 1, .done, .construct⟩
      ⟨some path2, 2, .done, .done⟩ :=
    RaceStep.run2 _ rfl
  exact Relation.ReflTransGen.head h1 (Relation.ReflTransGen.head h2
    (Relation.ReflTransGen.head h3 (Relation.ReflTransGen.single h4)))

/-- Claim C9: the node-label reader returns a not-found error when the
cache-kind label is absent (even if the size label alone is present),
returns the kind with the parsed size quantity when both labels are
present and the size parses (the numeric value 10 parses as the quantity
10), and returns a terminal parse error for a non-numeric size value. -/
theorem getVolumeTypeFromNode_spec :
    (∀ node labels, lookupKey labels VolumeTypeLabel = none →
      getVolumeTypeFromNode node labels
        = .error (VolumeTypeLabel ++ " label not found on node " ++ node)) ∧
    (∀ node labels kind, lookupKey labels VolumeTypeLabel = some kind →
      lookupKey labels SizeLabel = some "10" →
      getVolumeTypeFromNode node labels
        = .ok { VolumeType := kind, Size := ⟨"10"⟩, Disk := "" }) ∧
    (∀ node labels kind sz, lookupKey labels VolumeTypeLabel = some kind →
      lookupKey labels SizeLabel = some sz → parseQuantity sz = none →
      getVolumeTypeFromNode node labels
        = .error ("bad size label " ++ SizeLabel ++ "=" ++ sz ++ " on " ++ node)) := by
  refine ⟨?_, ?_, ?_⟩
  · intro node labels h
    unfold getVolumeTypeFromNode
    rw [h]
  · intro node labels kind h1 h2
    unfold getVolumeTypeFromNode
    rw [h1, h2]
    rfl
  · intro node labels kind sz h1 h2 h3
    unfold getVolumeTypeFromNode
    rw [h1, h2]
    show (match parseQuantity sz with
      | none =>
        (.error ("bad size label " ++ SizeLabel ++ "=" ++ sz ++ " on " ++ node) :
          Except String volumeTypeInfo)
      | some q => .ok { VolumeType := kind, Size := q, Disk := "" }) = _
    rw [h3]

/-- Claim C9 witness: the reader at the test inputs of the sources. -/
theorem getVolumeTypeFromNode_spec_witness :
    getVolumeTypeFromNode "n" [(SizeLabel, "10")]
      = .error (VolumeTypeLabel ++ " label not found on node " ++ "n") ∧
    getVolumeTypeFromNode "n" [(VolumeTypeLabel, "foo"), (SizeLabel, "10")]
      = .ok { VolumeType := "foo", Size := ⟨"10"⟩, Disk := "" } ∧
    getVolumeTypeFromNode "n" [(VolumeTypeLabel, "foo"), (SizeLabel, "ten")]
      = .error ("bad size label " ++ SizeLabel ++ "=" ++ "ten" ++ " on " ++ "n") :=
  ⟨getVolumeTypeFromNode_spec.1 "n" [(SizeLabel, "10")] (by decide),
    getVolumeTypeFromNode_spec.2.1 "n" [(VolumeTypeLabel, "foo"), (SizeLabel, "10")] "foo"
      (by decide) (by decide),
    getVolumeTypeFromNode_spec.2.2 "n" [(VolumeTypeLabel, "foo"), (SizeLabel, "ten")] "foo"
      "ten" (by decide) (by decide) (by decide)⟩

end NodeCache
